import Mathlib

set_option maxHeartbeats 1000000

/- Verification development for the `trader` procedural economy engine.

Floating-point values of the Python source are modelled as rationals (ℚ);
machine integers as ℤ/ℕ.  Every random draw of the source
(`random.random()`, `numpy` generator draws) is made explicit: the
embedding threads indexed streams of rationals, so the stochastic update
rules become pure functions of the stream contents.  Fallible code
(NumPy out-of-bounds indexing, `KeyError` on a dict, a failed `assert`)
is modelled with `Option`. -/

/-- Python's built-in `round(x)`: round to the nearest integer with ties
going to the even integer (banker's rounding), as applied to the
exponential increment draws in `NoiseController.sample_good_delta`. -/
def pyRound (q : ℚ) : ℤ :=
  if q - (⌊q⌋ : ℚ) < 1/2 then ⌊q⌋
  else if 1/2 < q - (⌊q⌋ : ℚ) then ⌊q⌋ + 1
  else if ⌊q⌋ % 2 = 0 then ⌊q⌋ else ⌊q⌋ + 1

/-- Python's `round(x, 2)` (round to whole cents), used for every price
the engine stores or quotes. -/
def round2 (q : ℚ) : ℚ := (pyRound (100 * q) : ℚ) / 100

/-- NumPy's `np.clip(x, lo, hi)`. -/
def npClip (x lo hi : ℚ) : ℚ := min (max x lo) hi

/- ### 3D arrays and trilinear sampling (`NoiseController.sample_3d`) -/

/-- A 3D NumPy array of shape `(T, Y, X)`, with entries given by a total
function on grid indices (entries outside the shape are never read by
valid indexings). -/
structure Arr3 where
  T : ℕ
  Y : ℕ
  X : ℕ
  data : ℕ → ℕ → ℕ → ℚ

/-- NumPy integer indexing on one axis of length `n`: indices in
`[0, n)` are used as-is, indices in `[-n, 0)` wrap around (Python
negative indexing), anything else raises `IndexError` (modelled `none`). -/
def pyIdx (n : ℕ) (i : ℤ) : Option ℕ :=
  if 0 ≤ i ∧ i < (n : ℤ) then some i.toNat
  else if -(n : ℤ) ≤ i ∧ i < 0 then some (i + n).toNat
  else none

/-- Read `arr[t, y, x]` with NumPy index semantics. -/
def Arr3.get (a : Arr3) (t y x : ℤ) : Option ℚ :=
  match pyIdx a.T t, pyIdx a.Y y, pyIdx a.X x with
  | some ti, some yi, some xi => some (a.data ti yi xi)
  | _, _, _ => none

/-- `NoiseController.sample_3d`: trilinear interpolation of a 3D array at
fractional coordinates scaled to `[0,1]`.  Only the `+1` corner indices
`t1, y1, x1` are clamped to the last valid index; the floor indices
`t0, y0, x0` are used unclamped, so an out-of-range coordinate can
produce an out-of-bounds read (`none`). -/
def sample_3d (a : Arr3) (tp yp xp : ℚ) : Option ℚ :=
  let tq := tp * ((a.T : ℚ) - 1)
  let yq := yp * ((a.Y : ℚ) - 1)
  let xq := xp * ((a.X : ℚ) - 1)
  let t0 : ℤ := ⌊tq⌋
  let y0 : ℤ := ⌊yq⌋
  let x0 : ℤ := ⌊xq⌋
  let t1 : ℤ := min (t0 + 1) ((a.T : ℤ) - 1)
  let y1 : ℤ := min (y0 + 1) ((a.Y : ℤ) - 1)
  let x1 : ℤ := min (x0 + 1) ((a.X : ℤ) - 1)
  let dt := tq - t0
  let dy := yq - y0
  let dx := xq - x0
  match a.get t0 y0 x0, a.get t0 y0 x1, a.get t0 y1 x0, a.get t0 y1 x1,
        a.get t1 y0 x0, a.get t1 y0 x1, a.get t1 y1 x0, a.get t1 y1 x1 with
  | some v000, some v001, some v010, some v011,
    some v100, some v101, some v110, some v111 =>
      let c00 := v000 * (1 - dx) + v001 * dx
      let c01 := v010 * (1 - dx) + v011 * dx
      let c10 := v100 * (1 - dx) + v101 * dx
      let c11 := v110 * (1 - dx) + v111 * dx
      let c0 := c00 * (1 - dy) + c01 * dy
      let c1 := c10 * (1 - dy) + c11 * dy
      some (c0 * (1 - dt) + c1 * dt)
  | _, _, _, _, _, _, _, _ => none

/-- Concrete 2×2×2 array (distinct corner values) used to witness the
sampling theorems. -/
def arrW : Arr3 := ⟨2, 2, 2, fun t y x => (t : ℚ) * 4 + (y : ℚ) * 2 + (x : ℚ)⟩

/- ### Random streams

The source draws from three seeded generators: the Python `random`
module (`random.seed(seed)`), the NumPy global generator
(`np.random.seed(seed)`, consumed by `perlin_numpy`), and
`np.random.default_rng(seed)` (`NoiseController.rng`); `World` adds a
fourth, `np.random.default_rng(seed * 2)`.  Each is a deterministic
stream of values in `[0,1)` indexed by how many draws were made; the
embedding carries the four stream functions and four cursor positions. -/
structure RNG where
  pyS : ℕ → ℚ
  pyPos : ℕ
  npS : ℕ → ℚ
  npPos : ℕ
  rngS : ℕ → ℚ
  rngPos : ℕ
  wS : ℕ → ℚ
  wPos : ℕ

/-- `random.random()`. -/
def RNG.drawPy (r : RNG) : ℚ × RNG :=
  (r.pyS r.pyPos, { r with pyPos := r.pyPos + 1 })

/-- One value from the NumPy global stream (`perlin_numpy` internals). -/
def RNG.drawNp (r : RNG) : ℚ × RNG :=
  (r.npS r.npPos, { r with npPos := r.npPos + 1 })

/-- `NoiseController.rng.random()`. -/
def RNG.drawRng (r : RNG) : ℚ × RNG :=
  (r.rngS r.rngPos, { r with rngPos := r.rngPos + 1 })

/-- `World.rng.random()`. -/
def RNG.drawW (r : RNG) : ℚ × RNG :=
  (r.wS r.wPos, { r with wPos := r.wPos + 1 })

/-- Modelled from the spec: the inverse CDF `-ln(1-u)` of the standard
exponential distribution is irrational, so it is modelled by the
deterministic stand-in `u / (1-u)` (`0` at `0`, nonnegative and
increasing on `[0,1)`).  No claim in this file depends on the shape of
the distribution, only on determinism and on the `prod_rate = 0` branch
of `sample_good_delta`, which bypasses this draw entirely. -/
def expStd (u : ℚ) : ℚ := u / (1 - u)

/-- `NoiseController.rng.exponential(scale)`: one draw from the
controller stream, transformed by the (modelled) inverse CDF. -/
def RNG.expoRng (r : RNG) (scale : ℚ) : ℚ × RNG :=
  let (u, r2) := r.drawRng
  (scale * expStd u, r2)

/- ### Goods and parameters -/

/-- `Good`: static per-commodity constants (`good.py`).  `max_amount` is
an `int` in the source; it is carried as a rational because the source
freely mixes it into float arithmetic.  The mutable `base_abundance`
slot (`None` until `World.__init__` fills it in, on `Good` objects
shared by identity) is modelled as a separate world-level map
`Good → ℚ` rather than a field, so that setting it does not change the
dictionary keys the farmers were built with. -/
structure Good where
  name : String
  base_price : ℚ
  base_prod_rate : ℚ
  prod_rate_multiplier : ℚ
  prod_rate_exponent : ℚ
  popularity : ℚ
  max_amount : ℚ
deriving DecidableEq

/-- `noise_controller.MIN_FARMER_PROD_PROBABILITY = 0.15`. -/
def MIN_FARMER_PROD_PROBABILITY : ℚ := 3/20

/-- `World.farmer_params` keys (`supply_sensitivity` is kept as a
natural number so that `x ** supply_sensitivity` stays rational; the
world config uses `supply_sensitivity = 1`). -/
structure FarmerParams where
  mean_n_goods : ℚ
  min_n_goods : ℚ
  supply_sensitivity : ℕ
  spread : ℚ
  lower_money_multiplier : ℚ
  upper_money_multiplier : ℚ
  money_growth_factor : ℚ
  p_money_growth : ℚ
  money_decay_factor : ℚ
  p_money_decay : ℚ

/- ### `NoiseController.sample_good_delta` and farmer construction -/

/-- Draw `k` values from the controller stream
(`NoiseController.rng.random(k)`), in order. -/
def drawRngList (k : ℕ) (r : RNG) : List ℚ × RNG :=
  match k with
  | 0 => ([], r)
  | k + 1 =>
    let (u, r2) := r.drawRng
    let (us, r3) := drawRngList k r2
    (u :: us, r3)

/-- `NoiseController.sample_good_delta`: the per-turn stochastic
inventory delta.  The increment is an integer (a rounded exponential
draw) but the decrement `(0.05 + 0.2·u₁·u₂)·amount` is not
integer-quantized, so the returned delta is a general rational. -/
def sample_good_delta (prod_rate amount max_amount : ℚ) (r : RNG) : ℚ × RNG :=
  let p_increment := min 1 (max 0 ((max_amount - amount) / (amount + 1/10000)))
  let (u_inc, r1) := r.drawPy
  let (increment, r2) : ℚ × RNG :=
    if u_inc < p_increment then
      if prod_rate = 0 then (0, r1)
      else if prod_rate ≤ 1 then
        let (e, r2) := r1.expoRng prod_rate
        ((pyRound e : ℚ), r2)
      else
        let (e, r2) := r1.expoRng (prod_rate + 1)
        (max 0 (pyRound (e - 1) : ℚ), r2)
    else (0, r1)
  let p_decrement :=
    min 1 (max 0 (1/4 + (1/2) * (amount / max_amount) / (1 + |1 - amount / max_amount|)))
  let (u_dec, r3) := r2.drawPy
  let (decrement, r4) : ℚ × RNG :=
    if u_dec < p_decrement then
      let (u1, r4) := r3.drawPy
      let (u2, r5) := r4.drawPy
      ((1/20 + (1/5) * u1 * u2) * amount, r5)
    else (0, r3)
  (increment - decrement, r4)

/-- Association-list lookup for the `good_dist` dict (its keys are
always exactly the world goods, so a default of `0` is never observed
by the source). -/
def assocQ (l : List (Good × ℚ)) (g : Good) : ℚ :=
  match l with
  | [] => 0
  | (g2, v) :: rest => if g = g2 then v else assocQ rest g

/-- `NoiseController.generate_farmer_good_dist`: Bernoulli-select a
subset of goods (probability `min(mean_n_goods · popularity-share, 1)`
each), retrying the whole selection until at least `min_n_goods` goods
are selected (`fuel` bounds the unbounded source loop; `none` models
non-termination within fuel), then give each selected good the
propensity `max(U, 0.15)` and each unselected good propensity `0`. -/
def generate_farmer_good_dist (fp : FarmerParams) (goods : List Good)
    (fuel : ℕ) (r : RNG) : Option ((Good → ℚ) × RNG) :=
  let total := (goods.map (fun g => g.popularity)).sum
  let scaled := goods.map (fun g => min (fp.mean_n_goods * (g.popularity / total)) 1)
  match fuel with
  | 0 => none
  | fuel + 1 =>
    let (us, r1) := drawRngList goods.length r
    let selections := List.zipWith (fun u s => decide (u < s)) us scaled
    let found : ℕ := selections.count true
    if fp.min_n_goods ≤ (found : ℚ) then
      let (vs, r2) := drawRngList goods.length r1
      let prod_rates := vs.map (fun v => max v MIN_FARMER_PROD_PROBABILITY)
      let selected := List.zipWith (fun (sel : Bool) rate => if sel then rate else 0)
        selections prod_rates
      some (assocQ (goods.zip selected), r2)
    else
      generate_farmer_good_dist fp goods fuel r1

/-- The mutable state of a `Farmer` (`farmer.py`).  `prices` is the
farmer's own price dict, empty (`none` everywhere) until the first
`update`; `dpv` and `money` are set by `init_money`. -/
structure Farmer where
  good_dist : Good → ℚ
  inventory : Good → ℚ
  prices : Good → Option ℚ
  dpv : ℚ
  money : ℚ

/-- `farmer_update_inventory`: for each good in order, multiply the
location's production rate by the farmer's propensity, draw a delta,
and clamp the new amount to `[0, max_amount]`.  `prodRate g` is
`Location.prod_rate(g, today)`; its `none` models the `IndexError` a
noise sample out of range would raise. -/
def update_inventory (goods : List Good) (gd : Good → ℚ)
    (prodRate : Good → Option ℚ) (inv : Good → ℚ) (r : RNG) :
    Option ((Good → ℚ) × RNG) :=
  match goods with
  | [] => some (inv, r)
  | g :: rest =>
    match prodRate g with
    | none => none
    | some lr =>
      let farmer_prod_rate := lr * gd g
      let (delta, r2) := sample_good_delta farmer_prod_rate (inv g) g.max_amount r
      let newInv := fun g2 => if g2 = g then
        min g.max_amount (max 0 (inv g + delta)) else inv g2
      update_inventory rest gd prodRate newInv r2

/-- `Farmer.compute_prices`: the farmer's own per-good price — the
location price untouched for goods the farmer does not produce, and
otherwise the location price times
`clip((supply_score / max(0.1, own inventory)) ** supply_sensitivity, 0.5, 2)`
(the source reads `location.supply_scores` into a variable named
`base_abundances`).  Goods outside the world list are absent from the
dict (`none`). -/
def Farmer.compute_prices (fp : FarmerParams) (goods : List Good)
    (locPrices locSupply : Good → ℚ) (f : Farmer) : Good → Option ℚ :=
  fun g =>
    if g ∈ goods then
      some (if f.good_dist g = 0 then locPrices g
        else locPrices g *
          npClip ((locSupply g / max (1/10) (f.inventory g)) ^ fp.supply_sensitivity)
            (1/2) 2)
    else none

/-- `Farmer.buy_price`: `round(prices[good] * (1 + spread), 2)`;
`none` models the `KeyError` when the price dict has no entry. -/
def Farmer.buy_price (fp : FarmerParams) (f : Farmer) (g : Good) : Option ℚ :=
  (f.prices g).map (fun p => round2 (p * (1 + fp.spread)))

/-- `Farmer.sell_price`: `round(prices[good] * (1 - spread), 2)`. -/
def Farmer.sell_price (fp : FarmerParams) (f : Farmer) (g : Good) : Option ℚ :=
  (f.prices g).map (fun p => round2 (p * (1 - fp.spread)))

/-- `Farmer.init_money` (also computes `dpv`): the `assert self.dpv > 0`
is modelled by `none` on failure.  Returns `(dpv, money, rng)`. -/
def Farmer.init_money (fp : FarmerParams) (goods : List Good)
    (gd : Good → ℚ) (r : RNG) : Option (ℚ × ℚ × RNG) :=
  let dpv := (goods.map (fun g => gd g * g.base_price)).sum
  if 0 < dpv then
    let (u, r2) := r.drawRng
    let mult := fp.lower_money_multiplier +
      (fp.upper_money_multiplier - fp.lower_money_multiplier) * u
    some (dpv, mult * dpv, r2)
  else none

/-- `Farmer.update_money`: unchanged inside the band
`[lower·dpv, upper·dpv]`; below it, with probability `p_money_growth`
either reset to `0.25·dpv` (when below that floor) or multiply by
`money_growth_factor`; above it, with probability `p_money_decay`
multiply by `money_decay_factor`. -/
def Farmer.update_money (fp : FarmerParams) (f : Farmer) (r : RNG) : ℚ × RNG :=
  if fp.lower_money_multiplier ≤ f.money / f.dpv ∧
      f.money / f.dpv ≤ fp.upper_money_multiplier then
    (f.money, r)
  else if f.money < fp.lower_money_multiplier * f.dpv then
    let (u, r2) := r.drawRng
    if u < fp.p_money_growth then
      if f.money < 1/4 * f.dpv then (1/4 * f.dpv, r2)
      else (f.money * fp.money_growth_factor, r2)
    else (f.money, r2)
  else
    let (u, r2) := r.drawRng
    if u < fp.p_money_decay then (f.money * fp.money_decay_factor, r2)
    else (f.money, r2)

/-- `Farmer.init_inventory`: accumulate the first ten days of
production, days `0..9` in order, starting from an all-zero inventory. -/
def warmupAux (goods : List Good) (gd : Good → ℚ)
    (prodRate : ℤ → Good → Option ℚ) (day : ℕ) (n : ℕ) (inv : Good → ℚ)
    (r : RNG) : Option ((Good → ℚ) × RNG) :=
  match n with
  | 0 => some (inv, r)
  | n + 1 =>
    match update_inventory goods gd (prodRate (day : ℤ)) inv r with
    | none => none
    | some (inv2, r2) => warmupAux goods gd prodRate (day + 1) n inv2 r2

/-- `Farmer.__init__` + `Farmer.init`: draw the good distribution,
warm up the inventory for ten days, then set `dpv` and `money`
(`none` when the good-selection loop exceeds `fuel`, a noise sample
is out of range, or the `dpv > 0` assert fires). -/
def buildFarmer (fp : FarmerParams) (goods : List Good)
    (prodRate : ℤ → Good → Option ℚ) (fuel : ℕ) (r : RNG) :
    Option (Farmer × RNG) :=
  match generate_farmer_good_dist fp goods fuel r with
  | none => none
  | some (gd, r1) =>
    match warmupAux goods gd prodRate 0 10 (fun _ => 0) r1 with
    | none => none
    | some (inv, r2) =>
      match Farmer.init_money fp goods gd r2 with
      | none => none
      | some (dpv, money, r3) =>
        some ({ good_dist := gd, inventory := inv, prices := fun _ => none,
                dpv := dpv, money := money }, r3)

/-- `Farmer.update`: inventory, then own prices, then money, within one
daily tick.  `locPrices`/`locSupply` are the owning location's freshly
recomputed dicts (always fully populated when the source calls
`Farmer.update`). -/
def Farmer.update (fp : FarmerParams) (goods : List Good)
    (prodRate : Good → Option ℚ) (locPrices locSupply : Good → ℚ)
    (f : Farmer) (r : RNG) : Option (Farmer × RNG) :=
  match update_inventory goods f.good_dist prodRate f.inventory r with
  | none => none
  | some (inv, r2) =>
    let f2 := { f with inventory := inv }
    let f3 := { f2 with prices := Farmer.compute_prices fp goods locPrices locSupply f2 }
    let (m, r3) := Farmer.update_money fp f3 r2
    some ({ f3 with money := m }, r3)

/-- A per-day update context for a farmer viewed in isolation: the
location production rates, location prices, and location supply scores
it reads that day. -/
structure DayCtx where
  prodRate : Good → Option ℚ
  locPrices : Good → ℚ
  locSupply : Good → ℚ

/-- Any number of daily `Farmer.update` calls, in order. -/
def Farmer.updateSeq (fp : FarmerParams) (goods : List Good)
    (ctx : List DayCtx) (f : Farmer) (r : RNG) : Option (Farmer × RNG) :=
  match ctx with
  | [] => some (f, r)
  | c :: rest =>
    match Farmer.update fp goods c.prodRate c.locPrices c.locSupply f r with
    | none => none
    | some (f2, r2) => Farmer.updateSeq fp goods rest f2 r2

/- ### Concrete instances used by counterexamples and witnesses -/

/-- `World.wheat = Good('wheat', 0.1, 0.8, 32, 2, 10, 100)`. -/
def gWheat : Good := ⟨"wheat", 1/10, 4/5, 32, 2, 10, 100⟩

/-- `World.corn = Good('corn', 0.25, 0.8, 24, 2.5, 8, 100)`. -/
def gCorn : Good := ⟨"corn", 1/4, 4/5, 24, 5/2, 8, 100⟩

/-- `World.farmer_params` with its configured values. -/
def fpW : FarmerParams := ⟨2, 1, 1, 1/10, 25, 50, 17/10, 9/25, 9/10, 2/5⟩

/-- A constant location production-rate function (rate `2` for every
good and day), standing in for `Location.prod_rate`. -/
def prTwo : ℤ → Good → Option ℚ := fun _ _ => some 2

/-- Python-`random` stream for the C2 run: day 0 takes a `+10`
increment, day 1 takes a (non-integer) decrement, days 2–9 change
nothing. -/
def pyC2 : ℕ → ℚ := fun n =>
  if n = 1 then 1/2 else if 7 ≤ n ∧ n % 2 = 1 then 9/10 else 0

/-- Controller stream for the C2 run: good selected, propensity draw
`1/2`, one exponential draw mapping to `10`, the rest `0`. -/
def rngC2 : ℕ → ℚ := fun n =>
  if n = 1 then 1/2 else if n = 2 then 10/11 else 0

def rC2 : RNG := ⟨pyC2, 0, fun _ => 0, 0, rngC2, 0, fun _ => 0, 0⟩

/-- An arbitrary farmer value, used only as the (never-observed)
default of `Option.getD` below. -/
def farmerDefault : Farmer := ⟨fun _ => 0, fun _ => 0, fun _ => none, 0, 0⟩

/-- The farmer built by the C2 run (the construction succeeds; see the
`buildFarmer_rC2` equation below). -/
def fC2 : Farmer × RNG :=
  (buildFarmer fpW [gWheat] prTwo 1 rC2).getD (farmerDefault, rC2)

/-- Python-`random` stream for the C7 run: every decrement check fails,
nothing else matters. -/
def pyC7 : ℕ → ℚ := fun n => if n % 2 = 1 then 9/10 else 0

/-- Controller stream for the C7 run: wheat selected, corn rejected
(draw `19/20` against selection probability `8/9`), propensity draws
`1/2`, all inventory/money draws `0`. -/
def rngC7 : ℕ → ℚ := fun n =>
  if n = 1 then 19/20 else if n = 2 then 1/2 else if n = 3 then 1/2 else 0

def rC7 : RNG := ⟨pyC7, 0, fun _ => 0, 0, rngC7, 0, fun _ => 0, 0⟩

/-- The farmer built by the C7 run: produces wheat with propensity
`1/2`, and has propensity `0` for corn (see `buildFarmer_rC7`). -/
def fC7 : Farmer × RNG :=
  (buildFarmer fpW [gWheat, gCorn] prTwo 1 rC7).getD (farmerDefault, rC7)

/- ### Locations and the world-level daily tick -/

/-- Modelled from the spec: `np.sqrt` (used by `Location.distance_to`)
is irrational on most inputs; it is modelled by a deterministic
stand-in that is `0` at `0` and positive on positive inputs.  The only
property any claim here relies on is `sqrtQ 0 = 0` (the distance from a
location to itself). -/
def sqrtQ (x : ℚ) : ℚ := if x ≤ 0 then 0 else x

/-- Modelled from the spec: `np.exp` (used for the Gaussian supply
weights and the location density field) is irrational on nonzero
inputs; it is modelled by a deterministic positive stand-in with value
`1` at `0`.  Claims rely only on determinism, positivity, and
`expQ 0 = 1`. -/
def expQ (x : ℚ) : ℚ := if 0 ≤ x then 1 + x else 1 / (1 - x)

/-- `Location.distance_to`: Euclidean distance between unit-square
positions. -/
def distance_to (p q : ℚ × ℚ) : ℚ :=
  sqrtQ ((p.1 - q.1) ^ 2 + (p.2 - q.2) ^ 2)

/-- The Gaussian kernel weight `np.exp(-distance**2)` used by
`Location.compute_supply_scores`. -/
def supplyWeight (p q : ℚ × ℚ) : ℚ := expQ (-(distance_to p q) ^ 2)

/-- The mutable state of a `Location`: its position, the two per-good
dicts recomputed daily (empty before the first update), and the
farmers that live there. -/
structure Loc where
  pos : ℚ × ℚ
  supply_scores : Good → Option ℚ
  prices : Good → Option ℚ
  farmers : List Farmer

/-- `Location.compute_supply_scores` for one good: gather every farmer
of every location (in location order), weight its inventory by the
Gaussian kernel of the distance between the farmer's location and
`self`, and take the normalized weighted sum (the source normalizes the
weight vector to sum `1`; dividing the weighted sum by the weight total
is the same thing). -/
def computeSupplyScore (self : Loc) (all : List Loc) (g : Good) : ℚ :=
  let weights := all.flatMap fun l2 =>
    l2.farmers.map fun _ => supplyWeight self.pos l2.pos
  let weighted := all.flatMap fun l2 =>
    l2.farmers.map fun f => supplyWeight self.pos l2.pos * f.inventory g
  weighted.sum / weights.sum

/-- The price formula of `Location.compute_prices` for one good:
`round(base_price * clip((base_abundance / max(0.1, supply_score)) ** supply_sensitivity, 0.25, 4), 2)`
(`ab` is the good's `base_abundance`). -/
def locPrice (sens : ℕ) (ab : ℚ) (g : Good) (supply : ℚ) : ℚ :=
  round2 (g.base_price *
    npClip ((ab / max (1/10) supply) ^ sens) (1/4) 4)

/-- `Location.compute_prices`: the per-good price dict (keys are
exactly the world goods; `abund` carries each good's `base_abundance`). -/
def Location.compute_prices (sens : ℕ) (abund : Good → ℚ)
    (goods : List Good) (supply_scores : Good → ℚ) : Good → Option ℚ :=
  fun g => if g ∈ goods then
    some (locPrice sens (abund g) g (supply_scores g)) else none

/-- `NoiseController.sample_good_prod`: sample the good's 3D production
map at `(day / year_length, x, y)` (the source passes `location[0]` as
the second axis and `location[1]` as the third). -/
def sample_good_prod (maps : Good → Arr3) (year_length : ℕ) (g : Good)
    (day : ℤ) (pos : ℚ × ℚ) : Option ℚ :=
  sample_3d (maps g) ((day : ℚ) / (year_length : ℚ)) pos.1 pos.2

/-- `Location.prod_rate`: `base_prod_rate + sample * prod_rate_multiplier`. -/
def Location.prod_rate (maps : Good → Arr3) (year_length : ℕ)
    (pos : ℚ × ℚ) (g : Good) (day : ℤ) : Option ℚ :=
  (sample_good_prod maps year_length g day pos).map
    (fun s => g.base_prod_rate + s * g.prod_rate_multiplier)

/-- Update the farmers of one location in list order
(`for farmer in self.farmers: farmer.update(today)`). -/
def farmersUpdate (fp : FarmerParams) (goods : List Good)
    (pr : Good → Option ℚ) (lp ls : Good → ℚ) :
    List Farmer → RNG → Option (List Farmer × RNG)
  | [], r => some ([], r)
  | f :: fs, r =>
    match Farmer.update fp goods pr lp ls f r with
    | none => none
    | some (f2, r2) =>
      match farmersUpdate fp goods pr lp ls fs r2 with
      | none => none
      | some (fs2, r3) => some (f2 :: fs2, r3)

/-- `Location.update`: first recompute the supply scores from the
current state of `all` locations, then the prices from those scores,
and only then update this location's own farmers (which read the
freshly stored dicts). -/
def Location.update (fp : FarmerParams) (sens : ℕ) (abund : Good → ℚ)
    (goods : List Good) (maps : Good → Arr3) (year_length : ℕ) (day : ℤ)
    (all : List Loc) (l : Loc) (r : RNG) : Option (Loc × RNG) :=
  let ss : Good → ℚ := fun g => computeSupplyScore l all g
  let ps : Good → ℚ := fun g => locPrice sens (abund g) g (ss g)
  match farmersUpdate fp goods
      (fun g => Location.prod_rate maps year_length l.pos g day) ps ss
      l.farmers r with
  | none => none
  | some (fs2, r2) =>
    some ({ l with
      supply_scores := fun g => if g ∈ goods then some (ss g) else none,
      prices := Location.compute_prices sens abund goods ss,
      farmers := fs2 }, r2)

/-- `World.update`'s loop `for location in self.locations:
location.update(self.today)`: locations are processed in order, each
seeing the farmers of earlier locations already updated and those of
its own and later locations not yet. -/
def worldLocsUpdate (fp : FarmerParams) (sens : ℕ) (abund : Good → ℚ)
    (goods : List Good) (maps : Good → Arr3) (year_length : ℕ) (day : ℤ) :
    List Loc → List Loc → RNG → Option (List Loc × RNG)
  | _, [], r => some ([], r)
  | done, l :: rest, r =>
    match Location.update fp sens abund goods maps year_length day
        (done ++ l :: rest) l r with
    | none => none
    | some (l2, r2) =>
      match worldLocsUpdate fp sens abund goods maps year_length day
          (done ++ [l2]) rest r2 with
      | none => none
      | some (ls2, r3) => some (l2 :: ls2, r3)

/-- One simulated-day tick over the whole world (`World.update`). -/
def World.update (fp : FarmerParams) (sens : ℕ) (abund : Good → ℚ)
    (goods : List Good) (maps : Good → Arr3) (year_length : ℕ) (day : ℤ)
    (locs : List Loc) (r : RNG) : Option (List Loc × RNG) :=
  worldLocsUpdate fp sens abund goods maps year_length day [] locs r

/- ### Concrete instances for the C3, C4 and C5 runs -/

/-- A farmer state for the C4 run: propensity `1/2`, inventory `15`,
money comfortably inside the band (`money/dpv = 30`). -/
def fmC4 : Farmer := ⟨fun _ => 1/2, fun _ => 15, fun _ => none, 1/20, 3/2⟩

/-- Streams for the C4 run: increment draw maps to `0`, decrement
checks fail. -/
def rC4 : RNG := ⟨pyC7, 0, fun _ => 0, 0, fun _ => 0, 0, fun _ => 0, 0⟩

/-- Location production rate input for the C4 run. -/
def prC4 : Good → Option ℚ := fun _ => some (9/5)

/-- The farmer after one `Farmer.update` in the C4 run. -/
def fUpdC4 : Farmer × RNG :=
  (Farmer.update fpW [gWheat] prC4 (fun _ => 1/50) (fun _ => 5) fmC4
    rC4).getD (farmerDefault, rC4)

/-- A constant 1×1×1 production map with value `1/320` (so that wheat's
production rate is `0.8 + 32/320 = 0.9`). -/
def mapsC3 : Good → Arr3 := fun _ => ⟨1, 1, 1, fun _ _ _ => 1/320⟩

/-- The single location of the C3 run, holding one farmer with
inventory `5` of each good. -/
def locC3 : Loc :=
  ⟨(0, 0), fun _ => none, fun _ => none,
    [⟨fun _ => 1/2, fun _ => 5, fun _ => none, 1/20, 3/2⟩]⟩

/-- Streams for the C3 run: the increment draw maps the exponential to
`10` (scale `9/20` times `200/9`), every decrement check fails. -/
def rC3 : RNG :=
  ⟨pyC7, 0, fun _ => 0, 0, fun n => if n = 0 then 200/209 else 0, 0,
    fun _ => 0, 0⟩

/-- The world after one `World.update` tick in the C3 run. -/
def wC3 : List Loc × RNG :=
  (World.update fpW 1 (fun _ => 0) [gWheat] mapsC3 100 0 [locC3]
    rC3).getD ([], rC3)

/- ### The Player and trades (`player.py`) -/

/-- The mutable state of the `Player` relevant to trades. -/
structure Player where
  inventory : Good → ℚ
  money : ℚ

/-- The mutation block at the end of `Player.buy`, after all guards
passed: farmer loses the goods and gains the money, the player the
reverse. -/
def buyExec (pl : Player) (f : Farmer) (g : Good) (quantity : ℤ)
    (pr : ℚ) : Bool × Player × Farmer :=
  let bp := round2 (pr * (quantity : ℚ))
  (true,
    ⟨fun g2 => if g2 = g then pl.inventory g2 + (quantity : ℚ)
      else pl.inventory g2, pl.money - bp⟩,
    ⟨f.good_dist,
      fun g2 => if g2 = g then f.inventory g2 - (quantity : ℚ)
        else f.inventory g2,
      f.prices, f.dpv, f.money + bp⟩)

/-- `Player.buy`: guards in source order — non-positive quantity,
insufficient farmer stock, negative explicit price, then (resolving a
`None` price through `Farmer.buy_price`, whose missing dict entry is a
`KeyError`, modelled `none`) insufficient player money; any failed
guard returns `False` with no mutation. -/
def Player.buy (fp : FarmerParams) (pl : Player) (g : Good)
    (quantity : ℤ) (f : Farmer) (price : Option ℚ) :
    Option (Bool × Player × Farmer) :=
  if quantity < 1 then some (false, pl, f)
  else if f.inventory g < (quantity : ℚ) then some (false, pl, f)
  else
    match price with
    | some pr =>
      if pr < 0 then some (false, pl, f)
      else if pl.money < round2 (pr * (quantity : ℚ)) then
        some (false, pl, f)
      else some (buyExec pl f g quantity pr)
    | none =>
      match Farmer.buy_price fp f g with
      | none => none
      | some pr =>
        if pl.money < round2 (pr * (quantity : ℚ)) then
          some (false, pl, f)
        else some (buyExec pl f g quantity pr)

/-- The mutation block at the end of `Player.sell`. -/
def sellExec (pl : Player) (f : Farmer) (g : Good) (quantity : ℤ)
    (sp : ℚ) : Bool × Player × Farmer :=
  (true,
    ⟨fun g2 => if g2 = g then pl.inventory g2 - (quantity : ℚ)
      else pl.inventory g2, pl.money + sp⟩,
    ⟨f.good_dist,
      fun g2 => if g2 = g then f.inventory g2 + (quantity : ℚ)
        else f.inventory g2,
      f.prices, f.dpv, f.money - sp⟩)

/-- `Player.sell`: non-positive quantity, insufficient player stock,
then (through `Farmer.sell_price`) a farmer who cannot pay; any failed
guard returns `False` with no mutation.  (No `max_amount` check: a sale
can push the farmer's inventory above `max_amount`.) -/
def Player.sell (fp : FarmerParams) (pl : Player) (g : Good)
    (quantity : ℤ) (f : Farmer) : Option (Bool × Player × Farmer) :=
  if quantity < 1 then some (false, pl, f)
  else if pl.inventory g < (quantity : ℚ) then some (false, pl, f)
  else
    match Farmer.sell_price fp f g with
    | none => none
    | some sp0 =>
      let sp := round2 (sp0 * (quantity : ℚ))
      if f.money < sp then some (false, pl, f)
      else some (sellExec pl f g quantity sp)

/-- A concrete player for witnesses. -/
def plW : Player := ⟨fun _ => 0, 10⟩

/- ### Operation sequences acting on one farmer (daily ticks and
external trades), for the money invariant -/

/-- An externally observable operation touching a farmer: a daily
engine update (with the location data it reads that day), or a trade
triggered by the player. -/
inductive Op where
  | dayUpdate (pr : Good → Option ℚ) (lp ls : Good → ℚ)
  | buyFrom (g : Good) (q : ℤ) (price : Option ℚ)
  | sellTo (g : Good) (q : ℤ)

/-- A `dayUpdate` is well-formed when the location prices it supplies
are nonnegative — which `Location.compute_prices` guarantees for goods
with nonnegative base price, since the clipped factor is positive. -/
def Op.Valid (goods : List Good) : Op → Prop
  | .dayUpdate _ lp _ => ∀ g ∈ goods, 0 ≤ lp g
  | _ => True

def applyOp (fp : FarmerParams) (goods : List Good)
    (st : Player × Farmer × RNG) (op : Op) :
    Option (Player × Farmer × RNG) :=
  match op with
  | .dayUpdate pr lp ls =>
    match Farmer.update fp goods pr lp ls st.2.1 st.2.2 with
    | none => none
    | some (f2, r2) => some (st.1, f2, r2)
  | .buyFrom g q price =>
    match Player.buy fp st.1 g q st.2.1 price with
    | none => none
    | some (_, pl2, f2) => some (pl2, f2, st.2.2)
  | .sellTo g q =>
    match Player.sell fp st.1 g q st.2.1 with
    | none => none
    | some (_, pl2, f2) => some (pl2, f2, st.2.2)

def applyOps (fp : FarmerParams) (goods : List Good) :
    List Op → (Player × Farmer × RNG) → Option (Player × Farmer × RNG)
  | [], st => some st
  | op :: rest, st =>
    match applyOp fp goods st op with
    | none => none
    | some st2 => applyOps fp goods rest st2

/-- The farmer-money invariant of C9: positive daily production value,
nonnegative money, and nonnegative own prices (so that a default-priced
buy can only add money). -/
def MoneyInv (f : Farmer) : Prop :=
  0 < f.dpv ∧ 0 ≤ f.money ∧ ∀ g p, f.prices g = some p → 0 ≤ p

/- ### Full engine construction (`NoiseController.__init__`,
`World.__init__`) for the determinism claim -/

/-- `noise_controller.LOCATION_GRID_SIZE = 256`. -/
def LOCATION_GRID_SIZE : ℕ := 256

/-- `World.prod_params` keys. -/
structure ProdParams where
  spatial_octaves : ℕ
  spatial_res : ℕ
  temporal_octaves : ℕ
  temporal_res : ℕ

/-- `World.location_params` keys. -/
structure LocationParams where
  n_locations : ℕ
  n_clusters : ℕ
  amp_min : ℚ
  amp_max : ℚ
  std_min : ℚ
  std_max : ℚ
  supply_sensitivity : ℕ

/-- Modelled from the spec: a seeded PRNG stream (Mersenne Twister for
`random`/`np.random`, PCG64 for `default_rng`) is a deterministic
sequence of values in `[0,1)` determined by its seed; the bit-level
generator is not part of this repository, so it is modelled by an
explicit deterministic formula (a linear congruence).  Only determinism
and the value range matter to any claim. -/
def mkStream (seed : ℤ) (salt : ℕ) : ℕ → ℚ := fun n =>
  ((((seed + (salt : ℤ)) * 9301 + (n : ℤ) * 49297) % 233280).natAbs : ℚ)
    / 233280

/-- The four seeded streams of one engine: `random.seed(seed)`,
`np.random.seed(seed)`, `np.random.default_rng(seed)`
(`NoiseController.rng`) and `np.random.default_rng(seed * 2)`
(`World.rng`). -/
def mkRNG (seed : ℤ) : RNG :=
  ⟨mkStream seed 0, 0, mkStream seed 1, 0, mkStream seed 2, 0,
    mkStream (seed * 2) 3, 0⟩

/-- Draw `k` values from the world stream (`World.rng`). -/
def drawWList (k : ℕ) (r : RNG) : List ℚ × RNG :=
  match k with
  | 0 => ([], r)
  | k + 1 =>
    let (u, r2) := r.drawW
    let (us, r3) := drawWList k r2
    (u :: us, r3)

/-- Modelled from the spec: `perlin_numpy.generate_perlin_noise_3d` is
an external library producing coherent multi-octave gradient noise over
a `(temporal_res, spatial_res, spatial_res)` grid, tileable along the
time axis, from the seeded NumPy global generator.  It is modelled as a
grid of successive global-stream draws (consuming `nt·nx·nx` of them):
only the facts that it is a deterministic function of the stream and
that each call advances the stream matter to any claim. -/
def generate_perlin_noise_3d (nt nx : ℕ) (r : RNG) : Arr3 × RNG :=
  (⟨nt, nx, nx, fun t y x => r.npS (r.npPos + (t * nx + y) * nx + x)⟩,
    { r with npPos := r.npPos + nt * nx * nx })

/-- All entries of a 3D array, in row-major order. -/
def arrVals (a : Arr3) : List ℚ :=
  (List.range a.T).flatMap fun t =>
    (List.range a.Y).flatMap fun y =>
      (List.range a.X).map fun x => a.data t y x

def arrMin (a : Arr3) : ℚ := (arrVals a).foldl min ((arrVals a).headD 0)

def arrMax (a : Arr3) : ℚ := (arrVals a).foldl max ((arrVals a).headD 0)

/-- `NoiseController.generate_good_prod`: raw tileable noise, rescaled
to `[0,1]`, then raised elementwise to `prod_rate_exponent`.  The real
power `v ** e` for the fractional exponents of the world goods is not
rational; it is modelled by the integer power with the exponent's
ceiling (a deterministic monotone re-mapping of `[0,1]`, which is all
any claim relies on). -/
def generate_good_prod (pp : ProdParams) (g : Good) (r : RNG) :
    Arr3 × RNG :=
  let (noise, r2) := generate_perlin_noise_3d pp.temporal_res pp.spatial_res r
  let lo := arrMin noise
  let hi := arrMax noise
  (⟨noise.T, noise.Y, noise.X,
    fun t y x => ((noise.data t y x - lo) / (hi - lo))
      ^ (⌈g.prod_rate_exponent⌉.toNat)⟩, r2)

/-- One production map per good, goods in order. -/
def goodProdMaps (pp : ProdParams) : List Good → RNG →
    List (Good × Arr3) × RNG
  | [], r => ([], r)
  | g :: gs, r =>
    let (m, r2) := generate_good_prod pp g r
    let (ms, r3) := goodProdMaps pp gs r2
    ((g, m) :: ms, r3)

/-- Look a good's production map up in the controller dict (keys are
always exactly the world goods). -/
def mapsOf (l : List (Good × Arr3)) (g : Good) : Arr3 :=
  match l with
  | [] => ⟨0, 0, 0, fun _ _ _ => 0⟩
  | (g2, m) :: rest => if g = g2 then m else mapsOf rest g

/-- `np.linspace(0, 1, N)` at index `k`. -/
def linspace01 (N k : ℕ) : ℚ := (k : ℚ) / ((N : ℚ) - 1)

/-- The density value at grid cell `(i, j)`: the sum of the cluster
Gaussians `amp · exp(-((grid_y - mean₀)² + (grid_x - mean₁)²)/(2·std²))`
(after `np.meshgrid(lin, lin)`, `grid_y[i,j] = lin[j]` and
`grid_x[i,j] = lin[i]`). -/
def densityAt (cl : List (ℚ × ℚ × ℚ × ℚ)) (N i j : ℕ) : ℚ :=
  (cl.map fun c => c.1 * expQ (-(((linspace01 N j) - c.2.1) ^ 2 +
    ((linspace01 N i) - c.2.2.1) ^ 2) / (2 * c.2.2.2 ^ 2))).sum

def densityTotal (cl : List (ℚ × ℚ × ℚ × ℚ)) (N : ℕ) : ℚ :=
  ((List.range (N * N)).map fun k => densityAt cl N (k / N) (k % N)).sum

/-- The flattened, normalized, cumulative density at index `k`
(`np.cumsum(density.flatten())` after `density /= density.sum()`). -/
def locCdfAt (cl : List (ℚ × ℚ × ℚ × ℚ)) (N k : ℕ) : ℚ :=
  (((List.range (k + 1)).map fun k2 =>
    densityAt cl N (k2 / N) (k2 % N)).sum) / densityTotal cl N

/-- `NoiseController.init_location_density`: draw the cluster
amplitudes, centers and widths (in that order) and build the location
CDF. -/
def init_location_density (lp : LocationParams) (r : RNG) :
    (ℕ → ℚ) × RNG :=
  let (amps0, r1) := drawRngList lp.n_clusters r
  let (meansFlat, r2) := drawRngList (lp.n_clusters * 2) r1
  let (stds0, r3) := drawRngList lp.n_clusters r2
  let cl := (List.range lp.n_clusters).map fun i =>
    (lp.amp_min + (lp.amp_max - lp.amp_min) * amps0.getD i 0,
     meansFlat.getD (2 * i) 0, meansFlat.getD (2 * i + 1) 0,
     lp.std_min + (lp.std_max - lp.std_min) * stds0.getD i 0)
  (locCdfAt cl LOCATION_GRID_SIZE, r3)

/-- `NoiseController.sample_location`: inverse-transform sampling — one
uniform draw, `np.searchsorted` into the CDF (first index whose
cumulative value reaches the draw), unravel to `(row, col)`, normalize
by the grid size; returns `(x, y)`. -/
def sample_location (cdf : ℕ → ℚ) (r : RNG) : (ℚ × ℚ) × RNG :=
  let (u, r2) := r.drawRng
  let idx := (List.range (LOCATION_GRID_SIZE * LOCATION_GRID_SIZE)).findIdx
    (fun k => u ≤ cdf k)
  (((idx % LOCATION_GRID_SIZE : ℕ) / (LOCATION_GRID_SIZE : ℚ),
    (idx / LOCATION_GRID_SIZE : ℕ) / (LOCATION_GRID_SIZE : ℚ)), r2)

def mkLocsAux (cdf : ℕ → ℚ) : ℕ → RNG → List Loc × RNG
  | 0, r => ([], r)
  | n + 1, r =>
    let (pos, r2) := sample_location cdf r
    let (ls, r3) := mkLocsAux cdf n r2
    (⟨pos, fun _ => none, fun _ => none, []⟩ :: ls, r3)

/-- `World.init_locations`: one `rng.choice` name draw per location
(the names themselves are display-only and out of scope), then one
`Location` constructor per name, each sampling its position; the
distance matrix is derived from the positions and carries no
randomness. -/
def initLocations (lp : LocationParams) (cdf : ℕ → ℚ) (r : RNG) :
    List Loc × RNG :=
  let (_, r1) := drawWList lp.n_locations r
  mkLocsAux cdf lp.n_locations r1

/-- Modelled from the spec: `Generator.geometric(0.28)` inverts the
geometric CDF with a logarithm, which is irrational; it is modelled by
a deterministic map of one world-stream draw to `{1,…,4}` (the source
clamps the draw to at most `4` anyway). -/
def geomModel (u : ℚ) : ℕ := 1 + (⌊3 * u⌋).toNat

/-- Build `n` farmers at one location: each draws a display name from
the Python stream (`names.get_full_name()`, modelled as one draw) and
then runs the full farmer constructor. -/
def buildFarmersAux (fps : FarmerParams) (goods : List Good)
    (prodRate : ℤ → Good → Option ℚ) (fuel : ℕ) :
    ℕ → RNG → Option (List Farmer × RNG)
  | 0, r => some ([], r)
  | n + 1, r =>
    let (_, r1) := r.drawPy
    match buildFarmer fps goods prodRate fuel r1 with
    | none => none
    | some (f, r2) =>
      match buildFarmersAux fps goods prodRate fuel n r2 with
      | none => none
      | some (fs, r3) => some (f :: fs, r3)

/-- `World.init_farmers`: per location (in order), draw
`min(4, geometric(0.28))` and construct that many farmers there. -/
def initFarmersAux (fps : FarmerParams) (goods : List Good)
    (maps : List (Good × Arr3)) (year_length : ℕ) (fuel : ℕ) :
    List Loc → RNG → Option (List Loc × RNG)
  | [], r => some ([], r)
  | l :: ls, r =>
    let (u, r1) := r.drawW
    let n := min 4 (geomModel u)
    match buildFarmersAux fps goods
        (fun day g => Location.prod_rate (mapsOf maps) year_length l.pos g day)
        fuel n r1 with
    | none => none
    | some (fs, r2) =>
      match initFarmersAux fps goods maps year_length fuel ls r2 with
      | none => none
      | some (ls2, r3) => some ({ l with farmers := fs } :: ls2, r3)

/-- `World.calculate_base_abundance` for every good: the average
initial per-farmer inventory, fixed once. -/
def setAbundances (locs : List Loc) : Good → ℚ := fun g =>
  let farmers := locs.flatMap fun l => l.farmers
  (farmers.map fun f => f.inventory g).sum / (farmers.length : ℚ)

/-- The full engine state produced by `World.__init__`. -/
structure EngineState where
  goods : List Good
  year_length : ℕ
  maps : List (Good × Arr3)
  cdf : ℕ → ℚ
  abund : Good → ℚ
  locations : List Loc
  player : Player
  today : ℤ
  rng : RNG

/-- `World.__init__` (the engine core of it): seed all four streams,
build the location CDF and the per-good noise maps, place the
locations, construct the farmers (with their ten-day warm-ups), fix the
base abundances, and create the player.  `today` starts at `-1`. -/
def World.build (seed : ℤ) (goods0 : List Good) (year_length : ℕ)
    (pp : ProdParams) (lp : LocationParams) (fps : FarmerParams)
    (player_init_money : ℚ) (fuel : ℕ) : Option EngineState :=
  let r0 := mkRNG seed
  let (cdf, r1) := init_location_density lp r0
  let (maps, r2) := goodProdMaps pp goods0 r1
  let (locs0, r3) := initLocations lp cdf r2
  match initFarmersAux fps goods0 maps year_length fuel locs0 r3 with
  | none => none
  | some (locs1, r4) =>
    some ⟨goods0, year_length, maps, cdf, setAbundances locs1, locs1,
      ⟨fun _ => 0, player_init_money⟩, -1, r4⟩

/-- `N` calls of `World.update`: each advances
`today = (today + 1) % year_length` (`World.next_day`) and runs the
daily tick over all locations. -/
def World.runN (fps : FarmerParams) (sens : ℕ) :
    ℕ → EngineState → Option EngineState
  | 0, e => some e
  | n + 1, e =>
    let day := (e.today + 1) % (e.year_length : ℤ)
    match World.update fps sens e.abund e.goods (mapsOf e.maps)
        e.year_length day e.locations e.rng with
    | none => none
    | some (locs2, r2) =>
      World.runN fps sens n
        { e with today := day, locations := locs2, rng := r2 }

/-- Construct an engine from a seed and run `N` identical daily
updates: the whole pipeline is one pure function of
`(seed, parameters, N)`. -/
def buildAndRun (seed : ℤ) (goods0 : List Good) (year_length : ℕ)
    (pp : ProdParams) (lp : LocationParams) (fps : FarmerParams)
    (player_init_money : ℚ) (fuel : ℕ) (N : ℕ) : Option EngineState :=
  match World.build seed goods0 year_length pp lp fps player_init_money
      fuel with
  | none => none
  | some e => World.runN fps lp.supply_sensitivity N e

/-- `World.apples`, `World.milk`, `World.steak` and the world's full
good list and parameter blocks, used to witness determinism at the
configured parameter set. -/
def gApple : Good := ⟨"apple", 1/2, 1/2, 30, 7/2, 6, 80⟩

def gMilk : Good := ⟨"milk", 3/2, 3/5, 10, 4, 7, 50⟩

def gSteak : Good := ⟨"steak", 5, 3/10, 8, 4, 4, 40⟩

def goodsW : List Good := [gWheat, gCorn, gApple, gMilk, gSteak]

def prodParamsW : ProdParams := ⟨4, 128, 2, 64⟩

def locationParamsW : LocationParams := ⟨20, 5, 1/40, 3/40, 2/25, 1/4, 1⟩

/- === END OF DEFINITIONS (more added above this line) === -/

/- === THEOREMS === -/

theorem pyRound_le (q : ℚ) : (pyRound q : ℚ) ≤ q + 1/2 := by
  unfold pyRound
  have h1 : (⌊q⌋ : ℚ) ≤ q := Int.floor_le q
  have h2 : q < (⌊q⌋ : ℚ) + 1 := Int.lt_floor_add_one q
  split
  · linarith
  · split
    · push_cast; linarith
    · split <;> push_cast <;> linarith

theorem le_pyRound (q : ℚ) : q - 1/2 ≤ (pyRound q : ℚ) := by
  unfold pyRound
  have h1 : (⌊q⌋ : ℚ) ≤ q := Int.floor_le q
  have h2 : q < (⌊q⌋ : ℚ) + 1 := Int.lt_floor_add_one q
  split
  · linarith
  · split
    · push_cast; linarith
    · split <;> push_cast <;> linarith

theorem pyRound_nonneg (q : ℚ) (h : 0 ≤ q) : 0 ≤ (pyRound q : ℚ) := by
  unfold pyRound
  have hf : (0 : ℤ) ≤ ⌊q⌋ := Int.floor_nonneg.mpr h
  have hf1 : (0 : ℤ) ≤ ⌊q⌋ + 1 := by omega
  split
  · exact_mod_cast hf
  · split
    · exact_mod_cast hf1
    · split
      · exact_mod_cast hf
      · exact_mod_cast hf1

theorem round2_le (q : ℚ) : round2 q ≤ q + 1/200 := by
  unfold round2
  have := pyRound_le (100 * q)
  linarith

theorem le_round2 (q : ℚ) : q - 1/200 ≤ round2 q := by
  unfold round2
  have := le_pyRound (100 * q)
  linarith

theorem round2_nonneg {q : ℚ} (h : 0 ≤ q) : 0 ≤ round2 q := by
  unfold round2
  have := pyRound_nonneg (100 * q) (by linarith)
  linarith

theorem npClip_le_hi (x lo hi : ℚ) : npClip x lo hi ≤ hi :=
  min_le_right _ _

theorem lo_le_npClip (x lo hi : ℚ) (h : lo ≤ hi) : lo ≤ npClip x lo hi :=
  le_min (le_max_right _ _) h

theorem pyIdx_of_lt {n : ℕ} {i : ℤ} (h0 : 0 ≤ i) (h : i < (n : ℤ)) :
    pyIdx n i = some i.toNat := by
  unfold pyIdx
  simp [h0, h]

theorem Arr3.get_of_valid (a : Arr3) {t y x : ℤ}
    (ht0 : 0 ≤ t) (ht : t < (a.T : ℤ)) (hy0 : 0 ≤ y) (hy : y < (a.Y : ℤ))
    (hx0 : 0 ≤ x) (hx : x < (a.X : ℤ)) :
    a.get t y x = some (a.data t.toNat y.toNat x.toNat) := by
  unfold Arr3.get
  rw [pyIdx_of_lt ht0 ht, pyIdx_of_lt hy0 hy, pyIdx_of_lt hx0 hx]

/-- Closed form of `sample_3d` when all eight corner reads are in range:
the standard 8-corner trilinear blend of the stored grid values. -/
theorem sample_3d_eq (a : Arr3) (tp yp xp : ℚ)
    (t0 y0 x0 t1 y1 x1 : ℤ) (dt dy dx : ℚ)
    (ht0 : ⌊tp * ((a.T : ℚ) - 1)⌋ = t0)
    (hy0 : ⌊yp * ((a.Y : ℚ) - 1)⌋ = y0)
    (hx0 : ⌊xp * ((a.X : ℚ) - 1)⌋ = x0)
    (ht1 : min (t0 + 1) ((a.T : ℤ) - 1) = t1)
    (hy1 : min (y0 + 1) ((a.Y : ℤ) - 1) = y1)
    (hx1 : min (x0 + 1) ((a.X : ℤ) - 1) = x1)
    (hdt : tp * ((a.T : ℚ) - 1) - (t0 : ℚ) = dt)
    (hdy : yp * ((a.Y : ℚ) - 1) - (y0 : ℚ) = dy)
    (hdx : xp * ((a.X : ℚ) - 1) - (x0 : ℚ) = dx)
    (ht0l : 0 ≤ t0) (ht0u : t0 < (a.T : ℤ))
    (hy0l : 0 ≤ y0) (hy0u : y0 < (a.Y : ℤ))
    (hx0l : 0 ≤ x0) (hx0u : x0 < (a.X : ℤ))
    (ht1l : 0 ≤ t1) (ht1u : t1 < (a.T : ℤ))
    (hy1l : 0 ≤ y1) (hy1u : y1 < (a.Y : ℤ))
    (hx1l : 0 ≤ x1) (hx1u : x1 < (a.X : ℤ)) :
    sample_3d a tp yp xp = some
      (((a.data t0.toNat y0.toNat x0.toNat * (1 - dx) +
         a.data t0.toNat y0.toNat x1.toNat * dx) * (1 - dy) +
        (a.data t0.toNat y1.toNat x0.toNat * (1 - dx) +
         a.data t0.toNat y1.toNat x1.toNat * dx) * dy) * (1 - dt) +
       ((a.data t1.toNat y0.toNat x0.toNat * (1 - dx) +
         a.data t1.toNat y0.toNat x1.toNat * dx) * (1 - dy) +
        (a.data t1.toNat y1.toNat x0.toNat * (1 - dx) +
         a.data t1.toNat y1.toNat x1.toNat * dx) * dy) * dt) := by
  simp only [sample_3d]
  rw [ht0, hy0, hx0, ht1, hy1, hx1, hdt, hdy, hdx,
    a.get_of_valid ht0l ht0u hy0l hy0u hx0l hx0u,
    a.get_of_valid ht0l ht0u hy0l hy0u hx1l hx1u,
    a.get_of_valid ht0l ht0u hy1l hy1u hx0l hx0u,
    a.get_of_valid ht0l ht0u hy1l hy1u hx1l hx1u,
    a.get_of_valid ht1l ht1u hy0l hy0u hx0l hx0u,
    a.get_of_valid ht1l ht1u hy0l hy0u hx1l hx1u,
    a.get_of_valid ht1l ht1u hy1l hy1u hx0l hx0u,
    a.get_of_valid ht1l ht1u hy1l hy1u hx1l hx1u]

/-- Floor of a rational in `[0, n-1]` is a valid index below `n`. -/
theorem floor_bounds_of_unit (n : ℕ) (c : ℚ) (hn : 1 ≤ n)
    (hc0 : 0 ≤ c) (hc1 : c ≤ 1) :
    0 ≤ ⌊c * ((n : ℚ) - 1)⌋ ∧ ⌊c * ((n : ℚ) - 1)⌋ < (n : ℤ) := by
  have hn1 : (1 : ℚ) ≤ (n : ℚ) := by exact_mod_cast hn
  have hpos : (0 : ℚ) ≤ (n : ℚ) - 1 := by linarith
  constructor
  · exact Int.floor_nonneg.mpr (mul_nonneg hc0 hpos)
  · have hle : c * ((n : ℚ) - 1) ≤ (n : ℚ) - 1 :=
      mul_le_of_le_one_left hpos hc1
    have hcast : ⌊((n : ℚ) - 1)⌋ = (n : ℤ) - 1 := by
      have : ((n : ℚ) - 1) = (((n : ℤ) - 1 : ℤ) : ℚ) := by push_cast; ring
      rw [this, Int.floor_intCast]
    have := Int.floor_le_floor hle
    rw [hcast] at this
    omega

/-- Both min-clamped corner indices are valid when the floor index is. -/
theorem clamp_bounds (n : ℕ) (i : ℤ) (hn : 1 ≤ n) (hi : 0 ≤ i) :
    0 ≤ min (i + 1) ((n : ℤ) - 1) ∧ min (i + 1) ((n : ℤ) - 1) < (n : ℤ) := by
  have : (1 : ℤ) ≤ (n : ℤ) := by exact_mod_cast hn
  constructor
  · exact le_min (by omega) (by omega)
  · exact lt_of_le_of_lt (min_le_right _ _) (by omega)

/-- C6 (amended part): whenever every axis has at least one sample and the
input coordinates lie in `[0,1]`, `sample_3d` returns a value (the `+1`
corner indices are clamped to the last valid index, so the top edge of
the cube is safe). -/
theorem sample_3d_some_of_unit_cube (a : Arr3) (tp yp xp : ℚ)
    (hT : 1 ≤ a.T) (hY : 1 ≤ a.Y) (hX : 1 ≤ a.X)
    (htp0 : 0 ≤ tp) (htp1 : tp ≤ 1) (hyp0 : 0 ≤ yp) (hyp1 : yp ≤ 1)
    (hxp0 : 0 ≤ xp) (hxp1 : xp ≤ 1) :
    (sample_3d a tp yp xp).isSome = true := by
  obtain ⟨ht0l, ht0u⟩ := floor_bounds_of_unit a.T tp hT htp0 htp1
  obtain ⟨hy0l, hy0u⟩ := floor_bounds_of_unit a.Y yp hY hyp0 hyp1
  obtain ⟨hx0l, hx0u⟩ := floor_bounds_of_unit a.X xp hX hxp0 hxp1
  obtain ⟨ht1l, ht1u⟩ := clamp_bounds a.T _ hT ht0l
  obtain ⟨hy1l, hy1u⟩ := clamp_bounds a.Y _ hY hy0l
  obtain ⟨hx1l, hx1u⟩ := clamp_bounds a.X _ hX hx0l
  rw [sample_3d_eq a tp yp xp _ _ _ _ _ _ _ _ _ rfl rfl rfl rfl rfl rfl rfl
    rfl rfl ht0l ht0u hy0l hy0u hx0l hx0u ht1l ht1u hy1l hy1u hx1l hx1u]
  rfl

theorem dim_sub_one_ne (n : ℕ) (h2 : 2 ≤ n) : ((n : ℚ) - 1) ≠ 0 := by
  have : (2 : ℚ) ≤ (n : ℚ) := by exact_mod_cast h2
  intro h
  linarith

/-- A grid-aligned coordinate `i/(n-1)` scales back to exactly `i`:
its floor index is `i` and its interpolation fraction is `0`. -/
theorem axis_aligned (n i : ℕ) (h2 : 2 ≤ n) (hi : i < n) :
    ⌊(i : ℚ) / ((n : ℚ) - 1) * ((n : ℚ) - 1)⌋ = (i : ℤ) ∧
    (i : ℚ) / ((n : ℚ) - 1) * ((n : ℚ) - 1) - ((i : ℤ) : ℚ) = 0 ∧
    0 ≤ (i : ℤ) ∧ (i : ℤ) < (n : ℤ) := by
  have hc : (i : ℚ) / ((n : ℚ) - 1) * ((n : ℚ) - 1) = (i : ℚ) :=
    div_mul_cancel₀ _ (dim_sub_one_ne n h2)
  refine ⟨?_, ?_, ?_, ?_⟩
  · rw [hc]; exact Int.floor_natCast i
  · rw [hc]; push_cast; ring
  · exact Int.natCast_nonneg i
  · exact_mod_cast hi

/-- A midpoint coordinate `(i + 1/2)/(n-1)` scales back to `i + 1/2`:
floor index `i`, clamped `+1` index `i + 1`, fraction `1/2`. -/
theorem axis_mid (n i : ℕ) (h2 : 2 ≤ n) (hi : i + 1 < n) :
    ⌊((i : ℚ) + 1/2) / ((n : ℚ) - 1) * ((n : ℚ) - 1)⌋ = (i : ℤ) ∧
    ((i : ℚ) + 1/2) / ((n : ℚ) - 1) * ((n : ℚ) - 1) - ((i : ℤ) : ℚ) = 1/2 ∧
    min ((i : ℤ) + 1) ((n : ℤ) - 1) = (i : ℤ) + 1 ∧
    0 ≤ (i : ℤ) ∧ (i : ℤ) < (n : ℤ) ∧
    0 ≤ (i : ℤ) + 1 ∧ (i : ℤ) + 1 < (n : ℤ) := by
  have hc : ((i : ℚ) + 1/2) / ((n : ℚ) - 1) * ((n : ℚ) - 1) = (i : ℚ) + 1/2 :=
    div_mul_cancel₀ _ (dim_sub_one_ne n h2)
  have hiZ : (i : ℤ) + 1 < (n : ℤ) := by exact_mod_cast hi
  refine ⟨?_, ?_, ?_, ?_, ?_, ?_, ?_⟩
  · rw [hc]
    refine Int.floor_eq_iff.mpr ⟨by push_cast; linarith, by push_cast; linarith⟩
  · rw [hc]; push_cast; ring
  · exact min_eq_left (by omega)
  · exact Int.natCast_nonneg i
  · omega
  · omega
  · exact hiZ

theorem toNat_nat_add_one (i : ℕ) : ((i : ℤ) + 1).toNat = i + 1 := by omega

/-- C8: trilinear sampling returns exactly the stored grid value at
grid-aligned coordinates, and the arithmetic mean of the two adjacent
stored values at the midpoint between two adjacent grid indices along
any one axis (the other two coordinates grid-aligned). -/
theorem C8_trilinear_exact_and_midpoint (a : Arr3) (i j k : ℕ)
    (hT : 2 ≤ a.T) (hY : 2 ≤ a.Y) (hX : 2 ≤ a.X) :
    (i < a.T → j < a.Y → k < a.X →
      sample_3d a ((i : ℚ) / ((a.T : ℚ) - 1)) ((j : ℚ) / ((a.Y : ℚ) - 1))
          ((k : ℚ) / ((a.X : ℚ) - 1)) = some (a.data i j k)) ∧
    (i + 1 < a.T → j < a.Y → k < a.X →
      sample_3d a (((i : ℚ) + 1/2) / ((a.T : ℚ) - 1)) ((j : ℚ) / ((a.Y : ℚ) - 1))
          ((k : ℚ) / ((a.X : ℚ) - 1))
        = some ((a.data i j k + a.data (i + 1) j k) / 2)) ∧
    (i < a.T → j + 1 < a.Y → k < a.X →
      sample_3d a ((i : ℚ) / ((a.T : ℚ) - 1)) (((j : ℚ) + 1/2) / ((a.Y : ℚ) - 1))
          ((k : ℚ) / ((a.X : ℚ) - 1))
        = some ((a.data i j k + a.data i (j + 1) k) / 2)) ∧
    (i < a.T → j < a.Y → k + 1 < a.X →
      sample_3d a ((i : ℚ) / ((a.T : ℚ) - 1)) ((j : ℚ) / ((a.Y : ℚ) - 1))
          (((k : ℚ) + 1/2) / ((a.X : ℚ) - 1))
        = some ((a.data i j k + a.data i j (k + 1)) / 2)) := by
  have h1T : 1 ≤ a.T := le_trans (by omega) hT
  have h1Y : 1 ≤ a.Y := le_trans (by omega) hY
  have h1X : 1 ≤ a.X := le_trans (by omega) hX
  refine ⟨?_, ?_, ?_, ?_⟩
  · intro hi hj hk
    obtain ⟨ft, dt0, til, tiu⟩ := axis_aligned a.T i hT hi
    obtain ⟨fy, dy0, jil, jiu⟩ := axis_aligned a.Y j hY hj
    obtain ⟨fx, dx0, kil, kiu⟩ := axis_aligned a.X k hX hk
    obtain ⟨t1l, t1u⟩ := clamp_bounds a.T (i : ℤ) h1T til
    obtain ⟨y1l, y1u⟩ := clamp_bounds a.Y (j : ℤ) h1Y jil
    obtain ⟨x1l, x1u⟩ := clamp_bounds a.X (k : ℤ) h1X kil
    rw [sample_3d_eq a _ _ _ (i : ℤ) (j : ℤ) (k : ℤ) _ _ _ 0 0 0 ft fy fx
      rfl rfl rfl dt0 dy0 dx0 til tiu jil jiu kil kiu t1l t1u y1l y1u x1l x1u]
    norm_num [Int.toNat_natCast]
  · intro hi hj hk
    obtain ⟨ft, dth, t1eq, til, tiu, t1l, t1u⟩ := axis_mid a.T i hT hi
    obtain ⟨fy, dy0, jil, jiu⟩ := axis_aligned a.Y j hY hj
    obtain ⟨fx, dx0, kil, kiu⟩ := axis_aligned a.X k hX hk
    obtain ⟨y1l, y1u⟩ := clamp_bounds a.Y (j : ℤ) h1Y jil
    obtain ⟨x1l, x1u⟩ := clamp_bounds a.X (k : ℤ) h1X kil
    rw [sample_3d_eq a _ _ _ (i : ℤ) (j : ℤ) (k : ℤ) ((i : ℤ) + 1) _ _ (1/2) 0 0
      ft fy fx t1eq rfl rfl dth dy0 dx0 til tiu jil jiu kil kiu t1l t1u
      y1l y1u x1l x1u]
    norm_num [Int.toNat_natCast, toNat_nat_add_one]
    ring
  · intro hi hj hk
    obtain ⟨ft, dt0, til, tiu⟩ := axis_aligned a.T i hT hi
    obtain ⟨fy, dyh, y1eq, jil, jiu, y1l, y1u⟩ := axis_mid a.Y j hY hj
    obtain ⟨fx, dx0, kil, kiu⟩ := axis_aligned a.X k hX hk
    obtain ⟨t1l, t1u⟩ := clamp_bounds a.T (i : ℤ) h1T til
    obtain ⟨x1l, x1u⟩ := clamp_bounds a.X (k : ℤ) h1X kil
    rw [sample_3d_eq a _ _ _ (i : ℤ) (j : ℤ) (k : ℤ) _ ((j : ℤ) + 1) _ 0 (1/2) 0
      ft fy fx rfl y1eq rfl dt0 dyh dx0 til tiu jil jiu kil kiu t1l t1u
      y1l y1u x1l x1u]
    norm_num [Int.toNat_natCast, toNat_nat_add_one]
    ring
  · intro hi hj hk
    obtain ⟨ft, dt0, til, tiu⟩ := axis_aligned a.T i hT hi
    obtain ⟨fy, dy0, jil, jiu⟩ := axis_aligned a.Y j hY hj
    obtain ⟨fx, dxh, x1eq, kil, kiu, x1l, x1u⟩ := axis_mid a.X k hX hk
    obtain ⟨t1l, t1u⟩ := clamp_bounds a.T (i : ℤ) h1T til
    obtain ⟨y1l, y1u⟩ := clamp_bounds a.Y (j : ℤ) h1Y jil
    rw [sample_3d_eq a _ _ _ (i : ℤ) (j : ℤ) (k : ℤ) _ _ ((k : ℤ) + 1) 0 0 (1/2)
      ft fy fx rfl rfl x1eq dt0 dy0 dxh til tiu jil jiu kil kiu t1l t1u
      y1l y1u x1l x1u]
    norm_num [Int.toNat_natCast, toNat_nat_add_one]
    ring

theorem C8_witness :
    sample_3d arrW (((0 : ℕ) : ℚ) / ((arrW.T : ℚ) - 1))
        (((0 : ℕ) : ℚ) / ((arrW.Y : ℚ) - 1)) (((0 : ℕ) : ℚ) / ((arrW.X : ℚ) - 1))
      = some (arrW.data 0 0 0) ∧
    sample_3d arrW ((((0 : ℕ) : ℚ) + 1/2) / ((arrW.T : ℚ) - 1))
        (((0 : ℕ) : ℚ) / ((arrW.Y : ℚ) - 1)) (((0 : ℕ) : ℚ) / ((arrW.X : ℚ) - 1))
      = some ((arrW.data 0 0 0 + arrW.data (0 + 1) 0 0) / 2) ∧
    sample_3d arrW (((0 : ℕ) : ℚ) / ((arrW.T : ℚ) - 1))
        ((((0 : ℕ) : ℚ) + 1/2) / ((arrW.Y : ℚ) - 1)) (((0 : ℕ) : ℚ) / ((arrW.X : ℚ) - 1))
      = some ((arrW.data 0 0 0 + arrW.data 0 (0 + 1) 0) / 2) ∧
    sample_3d arrW (((0 : ℕ) : ℚ) / ((arrW.T : ℚ) - 1))
        (((0 : ℕ) : ℚ) / ((arrW.Y : ℚ) - 1)) ((((0 : ℕ) : ℚ) + 1/2) / ((arrW.X : ℚ) - 1))
      = some ((arrW.data 0 0 0 + arrW.data 0 0 (0 + 1)) / 2) := by
  have h := C8_trilinear_exact_and_midpoint arrW 0 0 0 (by decide) (by decide)
    (by decide)
  exact ⟨h.1 (by decide) (by decide) (by decide),
    h.2.1 (by decide) (by decide) (by decide),
    h.2.2.1 (by decide) (by decide) (by decide),
    h.2.2.2 (by decide) (by decide) (by decide)⟩

/-- C6 (counterexample): `sample_3d` is not total on out-of-range
coordinates — at `tp = 2` on a 2×2×2 array the unclamped floor index
`t0 = 2` is out of bounds and the read fails (`IndexError` in the
source), so the coordinate is not "clamped to the last valid index". -/
theorem C6_counterexample :
    sample_3d ⟨2, 2, 2, fun _ _ _ => 0⟩ 2 0 0 = none := by
  simp only [sample_3d, Arr3.get, pyIdx]
  norm_num

/-- C6 (amended): only the `+1` corner indices are clamped to the last
valid grid index.  This makes sampling total on coordinates in `[0,1]`
(for nonempty fields) — including the top edge, where clamping of the
`+1` corner is what prevents an error — but coordinates far enough out
of range are not clamped and can fail (see the counterexample). -/
theorem C6_amended_in_range_total (a : Arr3) (tp yp xp : ℚ)
    (hT : 1 ≤ a.T) (hY : 1 ≤ a.Y) (hX : 1 ≤ a.X)
    (htp0 : 0 ≤ tp) (htp1 : tp ≤ 1) (hyp0 : 0 ≤ yp) (hyp1 : yp ≤ 1)
    (hxp0 : 0 ≤ xp) (hxp1 : xp ≤ 1) :
    (sample_3d a tp yp xp).isSome = true :=
  sample_3d_some_of_unit_cube a tp yp xp hT hY hX htp0 htp1 hyp0 hyp1 hxp0 hxp1

theorem C6_witness : (sample_3d arrW 1 (1/2) 0).isSome = true :=
  C6_amended_in_range_total arrW 1 (1/2) 0 (by decide) (by decide) (by decide)
    (by norm_num) (by norm_num) (by norm_num) (by norm_num) (by norm_num)
    (by norm_num)

/-- One `update_inventory` pass keeps each good's amount in
`[0, max_amount]` (pointwise at `g`): the stored value is explicitly
clamped by `min(max_amount, max(0, amount + delta))`. -/
theorem update_inventory_bounds (gd : Good → ℚ) (pr : Good → Option ℚ)
    (g : Good) (hg : 0 ≤ g.max_amount) :
    ∀ (goods : List Good) (inv : Good → ℚ) (r : RNG) (inv2 : Good → ℚ)
      (r2 : RNG), update_inventory goods gd pr inv r = some (inv2, r2) →
      0 ≤ inv g → inv g ≤ g.max_amount →
      0 ≤ inv2 g ∧ inv2 g ≤ g.max_amount := by
  intro goods
  induction goods with
  | nil =>
    intro inv r inv2 r2 h h0 h1
    simp only [update_inventory, Option.some.injEq, Prod.mk.injEq] at h
    obtain ⟨hi, -⟩ := h
    subst hi
    exact ⟨h0, h1⟩
  | cons g0 rest ih =>
    intro inv r inv2 r2 h h0 h1
    simp only [update_inventory] at h
    cases hpr : pr g0 with
    | none => simp [hpr] at h
    | some lr =>
      simp only [hpr] at h
      by_cases hgg : g = g0
      · subst hgg
        refine ih _ _ inv2 r2 h ?_ ?_
        · simp only [if_pos rfl]
          exact le_min hg (le_max_left 0 _)
        · simp only [if_pos rfl]
          exact min_le_left _ _
      · refine ih _ _ inv2 r2 h ?_ ?_
        · simpa only [if_neg hgg] using h0
        · simpa only [if_neg hgg] using h1

theorem pyRound_intCast (z : ℤ) : pyRound (z : ℚ) = z := by
  unfold pyRound
  rw [Int.floor_intCast]
  norm_num

theorem pyRound_zero : pyRound 0 = 0 := by
  have := pyRound_intCast 0
  norm_num at this
  exact this

theorem pyRound_ten : pyRound 10 = 10 := by
  have := pyRound_intCast 10
  norm_num at this
  exact this

/-- With production rate `0` and current amount `0` the sampled delta is
exactly `0`: the `prod_rate == 0` branch returns increment `0`, and the
decrement is proportional to the amount. -/
theorem sample_good_delta_zero (mx : ℚ) (r : RNG) :
    (sample_good_delta 0 0 mx r).1 = 0 := by
  simp [sample_good_delta, apply_ite]

/-- `update_inventory` keeps a propensity-`0` good's amount at `0`. -/
theorem update_inventory_zero (gd : Good → ℚ) (pr : Good → Option ℚ)
    (g : Good) (hg : 0 ≤ g.max_amount) (hd : gd g = 0) :
    ∀ (goods : List Good) (inv : Good → ℚ) (r : RNG) (inv2 : Good → ℚ)
      (r2 : RNG), update_inventory goods gd pr inv r = some (inv2, r2) →
      inv g = 0 → inv2 g = 0 := by
  intro goods
  induction goods with
  | nil =>
    intro inv r inv2 r2 h h0
    simp only [update_inventory, Option.some.injEq, Prod.mk.injEq] at h
    obtain ⟨hi, -⟩ := h
    subst hi
    exact h0
  | cons g0 rest ih =>
    intro inv r inv2 r2 h h0
    simp only [update_inventory] at h
    cases hpr : pr g0 with
    | none => simp [hpr] at h
    | some lr =>
      simp only [hpr] at h
      by_cases hgg : g = g0
      · subst hgg
        refine ih _ _ inv2 r2 h ?_
        rw [if_pos rfl, h0, hd, mul_zero, sample_good_delta_zero]
        simp [hg]
      · refine ih _ _ inv2 r2 h ?_
        simpa only [if_neg hgg] using h0

/-- The ten-day warm-up keeps a propensity-`0` good's amount at `0`. -/
theorem warmupAux_zero (goods : List Good) (gd : Good → ℚ)
    (pr : ℤ → Good → Option ℚ) (g : Good) (hg : 0 ≤ g.max_amount)
    (hd : gd g = 0) :
    ∀ (n day : ℕ) (inv : Good → ℚ) (r : RNG) (inv2 : Good → ℚ) (r2 : RNG),
      warmupAux goods gd pr day n inv r = some (inv2, r2) →
      inv g = 0 → inv2 g = 0 := by
  intro n
  induction n with
  | zero =>
    intro day inv r inv2 r2 h h0
    simp only [warmupAux, Option.some.injEq, Prod.mk.injEq] at h
    obtain ⟨hi, -⟩ := h
    subst hi
    exact h0
  | succ n ih =>
    intro day inv r inv2 r2 h h0
    simp only [warmupAux] at h
    cases hu : update_inventory goods gd (pr (day : ℤ)) inv r with
    | none => simp [hu] at h
    | some p =>
      simp only [hu] at h
      exact ih (day + 1) p.1 p.2 inv2 r2 h
        (update_inventory_zero gd (pr (day : ℤ)) g hg hd goods inv r p.1 p.2
          (by rw [hu]) h0)

/-- Evaluation of the C2 run: the build succeeds. -/
theorem buildFarmer_rC2 :
    buildFarmer fpW [gWheat] prTwo 1 rC2 = some fC2 := by
  norm_num [fC2, buildFarmer, generate_farmer_good_dist, drawRngList,
    warmupAux, update_inventory, sample_good_delta, Farmer.init_money, assocQ,
    RNG.drawPy, RNG.drawRng, RNG.expoRng, expStd, rC2, pyC2, rngC2,
    fpW, gWheat, prTwo, MIN_FARMER_PROD_PROBABILITY, min_def, max_def,
    abs_of_nonneg, pyRound_ten, pyRound_zero, Good.mk.injEq, List.count_cons,
    List.count_nil]

/-- Evaluation of the C2 run: the inventory of wheat after the ten-day
warm-up is the non-integer rational `19/2` (day 0 adds `10`, day 1
applies the fractional decrement `(0.05)·10 = 1/2`). -/
theorem fC2_inventory : fC2.1.inventory gWheat = 19/2 := by
  norm_num [fC2, buildFarmer, generate_farmer_good_dist, drawRngList,
    warmupAux, update_inventory, sample_good_delta, Farmer.init_money, assocQ,
    RNG.drawPy, RNG.drawRng, RNG.expoRng, expStd, rC2, pyC2, rngC2,
    fpW, gWheat, prTwo, MIN_FARMER_PROD_PROBABILITY, min_def, max_def,
    abs_of_nonneg, pyRound_ten, pyRound_zero, Good.mk.injEq, List.count_cons,
    List.count_nil]

/-- Evaluation of the C7 run: the build succeeds. -/
theorem buildFarmer_rC7 :
    buildFarmer fpW [gWheat, gCorn] prTwo 1 rC7 = some fC7 := by
  norm_num [fC7, buildFarmer, generate_farmer_good_dist, drawRngList,
    warmupAux, update_inventory, sample_good_delta, Farmer.init_money, assocQ,
    RNG.drawPy, RNG.drawRng, RNG.expoRng, expStd, rC7, pyC7, rngC7,
    fpW, gWheat, gCorn, prTwo, MIN_FARMER_PROD_PROBABILITY, min_def, max_def,
    abs_of_nonneg, pyRound_zero, Good.mk.injEq, List.count_cons,
    List.count_nil]

/-- Evaluation of the C7 run: the built farmer has propensity `0` for
corn. -/
theorem fC7_good_dist : fC7.1.good_dist gCorn = 0 := by
  norm_num [fC7, buildFarmer, generate_farmer_good_dist, drawRngList,
    warmupAux, update_inventory, sample_good_delta, Farmer.init_money, assocQ,
    RNG.drawPy, RNG.drawRng, RNG.expoRng, expStd, rC7, pyC7, rngC7,
    fpW, gWheat, gCorn, prTwo, MIN_FARMER_PROD_PROBABILITY, min_def, max_def,
    abs_of_nonneg, pyRound_zero, Good.mk.injEq, List.count_cons,
    List.count_nil]

/-- Inversion of `buildFarmer`: the three stages that must succeed, and
the fields of the resulting farmer. -/
theorem buildFarmer_inv (fp : FarmerParams) (goods : List Good)
    (pr : ℤ → Good → Option ℚ) (fuel : ℕ) (r0 : RNG) (f0 : Farmer)
    (r1 : RNG) (h : buildFarmer fp goods pr fuel r0 = some (f0, r1)) :
    ∃ gd rA inv rB dpv money,
      generate_farmer_good_dist fp goods fuel r0 = some (gd, rA) ∧
      warmupAux goods gd pr 0 10 (fun _ => 0) rA = some (inv, rB) ∧
      Farmer.init_money fp goods gd rB = some (dpv, money, r1) ∧
      f0 = ⟨gd, inv, fun _ => none, dpv, money⟩ := by
  simp only [buildFarmer] at h
  cases hgd : generate_farmer_good_dist fp goods fuel r0 with
  | none => simp [hgd] at h
  | some pgd =>
    obtain ⟨gd, rA⟩ := pgd
    simp only [hgd] at h
    cases hw : warmupAux goods gd pr 0 10 (fun _ => 0) rA with
    | none => simp [hw] at h
    | some pw =>
      obtain ⟨inv, rB⟩ := pw
      simp only [hw] at h
      cases hm : Farmer.init_money fp goods gd rB with
      | none => simp [hm] at h
      | some pm =>
        obtain ⟨dpv, money, rF⟩ := pm
        simp only [hm] at h
        rw [Option.some.injEq, Prod.mk.injEq] at h
        obtain ⟨hf, hr⟩ := h
        exact ⟨gd, rA, inv, rB, dpv, money, rfl, hw, hr ▸ hm, hf.symm⟩

/-- Inversion of one `Farmer.update` step: inventory comes from
`update_inventory` and `good_dist` is untouched. -/
theorem farmer_update_inv (fp : FarmerParams) (goods : List Good)
    (pr : Good → Option ℚ) (lp ls : Good → ℚ) (f : Farmer) (r : RNG)
    (f2 : Farmer) (r2 : RNG)
    (h : Farmer.update fp goods pr lp ls f r = some (f2, r2)) :
    ∃ inv rr, update_inventory goods f.good_dist pr f.inventory r
        = some (inv, rr) ∧
      f2.inventory = inv ∧ f2.good_dist = f.good_dist ∧ f2.dpv = f.dpv ∧
      f2.prices = Farmer.compute_prices fp goods lp ls
        ⟨f.good_dist, inv, f.prices, f.dpv, f.money⟩ ∧
      f2.money = (Farmer.update_money fp
        ⟨f.good_dist, inv,
          Farmer.compute_prices fp goods lp ls
            ⟨f.good_dist, inv, f.prices, f.dpv, f.money⟩,
          f.dpv, f.money⟩ rr).1 := by
  simp only [Farmer.update] at h
  cases hu : update_inventory goods f.good_dist pr f.inventory r with
  | none => simp [hu] at h
  | some pu =>
    obtain ⟨inv, rr⟩ := pu
    simp only [hu] at h
    rw [Option.some.injEq, Prod.mk.injEq] at h
    obtain ⟨hf, -⟩ := h
    refine ⟨inv, rr, rfl, ?_, ?_, ?_, ?_, ?_⟩ <;> rw [← hf]

/-- The ten-day warm-up keeps each good's amount within
`[0, max_amount]`. -/
theorem warmupAux_bounds (goods : List Good) (gd : Good → ℚ)
    (pr : ℤ → Good → Option ℚ) (g : Good) (hg : 0 ≤ g.max_amount) :
    ∀ (n day : ℕ) (inv : Good → ℚ) (r : RNG) (inv2 : Good → ℚ) (r2 : RNG),
      warmupAux goods gd pr day n inv r = some (inv2, r2) →
      0 ≤ inv g → inv g ≤ g.max_amount →
      0 ≤ inv2 g ∧ inv2 g ≤ g.max_amount := by
  intro n
  induction n with
  | zero =>
    intro day inv r inv2 r2 h h0 h1
    simp only [warmupAux, Option.some.injEq, Prod.mk.injEq] at h
    obtain ⟨hi, -⟩ := h
    subst hi
    exact ⟨h0, h1⟩
  | succ n ih =>
    intro day inv r inv2 r2 h h0 h1
    simp only [warmupAux] at h
    cases hu : update_inventory goods gd (pr (day : ℤ)) inv r with
    | none => simp [hu] at h
    | some p =>
      simp only [hu] at h
      obtain ⟨hb0, hb1⟩ := update_inventory_bounds gd (pr (day : ℤ)) g hg
        goods inv r p.1 p.2 (by rw [hu]) h0 h1
      exact ih (day + 1) p.1 p.2 inv2 r2 h hb0 hb1

/-- Any sequence of daily updates keeps each good's amount within
`[0, max_amount]` (and never changes `good_dist`). -/
theorem updateSeq_bounds (fp : FarmerParams) (goods : List Good)
    (g : Good) (hg : 0 ≤ g.max_amount) :
    ∀ (ctx : List DayCtx) (f : Farmer) (r : RNG) (f2 : Farmer) (r2 : RNG),
      Farmer.updateSeq fp goods ctx f r = some (f2, r2) →
      0 ≤ f.inventory g → f.inventory g ≤ g.max_amount →
      0 ≤ f2.inventory g ∧ f2.inventory g ≤ g.max_amount := by
  intro ctx
  induction ctx with
  | nil =>
    intro f r f2 r2 h h0 h1
    simp only [Farmer.updateSeq, Option.some.injEq, Prod.mk.injEq] at h
    obtain ⟨hf, -⟩ := h
    subst hf
    exact ⟨h0, h1⟩
  | cons c rest ih =>
    intro f r f2 r2 h h0 h1
    simp only [Farmer.updateSeq] at h
    cases hu : Farmer.update fp goods c.prodRate c.locPrices c.locSupply f r with
    | none => simp [hu] at h
    | some p =>
      simp only [hu] at h
      obtain ⟨inv, rr, hui, hinv, -, -, -, -⟩ :=
        farmer_update_inv fp goods c.prodRate c.locPrices c.locSupply f r
          p.1 p.2 (by rw [hu])
      obtain ⟨hb0, hb1⟩ := update_inventory_bounds f.good_dist c.prodRate g hg
        goods f.inventory r inv rr hui h0 h1
      exact ih p.1 p.2 f2 r2 h (by rw [hinv]; exact hb0) (by rw [hinv]; exact hb1)

/-- Any sequence of daily updates keeps a propensity-`0` good's amount
at `0` (and never changes `good_dist`). -/
theorem updateSeq_zero (fp : FarmerParams) (goods : List Good)
    (g : Good) (hg : 0 ≤ g.max_amount) :
    ∀ (ctx : List DayCtx) (f : Farmer) (r : RNG) (f2 : Farmer) (r2 : RNG),
      Farmer.updateSeq fp goods ctx f r = some (f2, r2) →
      f.good_dist g = 0 → f.inventory g = 0 →
      f2.good_dist g = 0 ∧ f2.inventory g = 0 := by
  intro ctx
  induction ctx with
  | nil =>
    intro f r f2 r2 h hz h0
    simp only [Farmer.updateSeq, Option.some.injEq, Prod.mk.injEq] at h
    obtain ⟨hf, -⟩ := h
    subst hf
    exact ⟨hz, h0⟩
  | cons c rest ih =>
    intro f r f2 r2 h hz h0
    simp only [Farmer.updateSeq] at h
    cases hu : Farmer.update fp goods c.prodRate c.locPrices c.locSupply f r with
    | none => simp [hu] at h
    | some p =>
      simp only [hu] at h
      obtain ⟨inv, rr, hui, hinv, hgd, -, -, -⟩ :=
        farmer_update_inv fp goods c.prodRate c.locPrices c.locSupply f r
          p.1 p.2 (by rw [hu])
      have hz2 : p.1.good_dist g = 0 := by rw [hgd]; exact hz
      have h02 : p.1.inventory g = 0 := by
        rw [hinv]
        exact update_inventory_zero f.good_dist c.prodRate g hg hz goods
          f.inventory r inv rr hui h0
      exact ih p.1 p.2 f2 r2 h hz2 h02

/-- C2 (amended): for every farmer and good, after construction with its
ten-day warm-up and after any number of daily update calls, the
inventory satisfies `0 ≤ inventory[good] ≤ good.max_amount`.  (The
original claim also asserted the value is an integer; the decrement of
`sample_good_delta` is not integer-quantized, so that part fails — see
the counterexample.) -/
theorem C2_amended_inventory_bounds (fp : FarmerParams) (goods : List Good)
    (pr : ℤ → Good → Option ℚ) (fuel : ℕ) (r0 : RNG) (f0 : Farmer) (r1 : RNG)
    (ctx : List DayCtx) (f : Farmer) (r2 : RNG) (g : Good)
    (hg : 0 ≤ g.max_amount)
    (hb : buildFarmer fp goods pr fuel r0 = some (f0, r1))
    (hs : Farmer.updateSeq fp goods ctx f0 r1 = some (f, r2)) :
    (0 ≤ f0.inventory g ∧ f0.inventory g ≤ g.max_amount) ∧
    (0 ≤ f.inventory g ∧ f.inventory g ≤ g.max_amount) := by
  obtain ⟨gd, rA, inv, rB, dpv, money, hgd, hw, hm, hf⟩ :=
    buildFarmer_inv fp goods pr fuel r0 f0 r1 hb
  have h0 : 0 ≤ f0.inventory g ∧ f0.inventory g ≤ g.max_amount := by
    rw [hf]
    exact warmupAux_bounds goods gd pr g hg 10 0 (fun _ => 0) rA inv rB hw
      le_rfl hg
  exact ⟨h0, updateSeq_bounds fp goods g hg ctx f0 r1 f r2 hs h0.1 h0.2⟩

/-- C2 (counterexample): the concrete farmer construction `rC2` (one
good, wheat) ends its ten-day warm-up with inventory `19/2` — inside the
bounds, but not an integer, because day 1 applies the fractional
decrement `0.05 · 10`. -/
theorem C2_counterexample :
    fC2.1.inventory gWheat = 19/2 ∧ ¬ ∃ z : ℤ, (19/2 : ℚ) = (z : ℚ) := by
  refine ⟨fC2_inventory, ?_⟩
  rintro ⟨z, hz⟩
  have h2 : (19 : ℚ) = 2 * (z : ℚ) := by field_simp at hz; linarith
  have h3 : (19 : ℤ) = 2 * z := by exact_mod_cast h2
  omega

theorem C2_witness :
    (0 ≤ fC2.1.inventory gWheat ∧ fC2.1.inventory gWheat ≤ gWheat.max_amount) ∧
    (0 ≤ fC2.1.inventory gWheat ∧ fC2.1.inventory gWheat ≤ gWheat.max_amount) :=
  C2_amended_inventory_bounds fpW [gWheat] prTwo 1 rC2 fC2.1 fC2.2 [] fC2.1
    fC2.2 gWheat (by norm_num [gWheat]) buildFarmer_rC2 rfl

/-- C7: a farmer whose production propensity for a good is `0` has
inventory `0` for that good after construction (the warm-up never
creates any: the `prod_rate == 0` branch yields increment `0` and the
decrement is proportional to the current amount) and after any number
of daily updates. -/
theorem C7_zero_propensity_zero_inventory (fp : FarmerParams)
    (goods : List Good) (pr : ℤ → Good → Option ℚ) (fuel : ℕ) (r0 : RNG)
    (f0 : Farmer) (r1 : RNG) (ctx : List DayCtx) (f : Farmer) (r2 : RNG)
    (g : Good) (hg : 0 ≤ g.max_amount)
    (hb : buildFarmer fp goods pr fuel r0 = some (f0, r1))
    (hz : f0.good_dist g = 0)
    (hs : Farmer.updateSeq fp goods ctx f0 r1 = some (f, r2)) :
    f0.inventory g = 0 ∧ f.inventory g = 0 := by
  obtain ⟨gd, rA, inv, rB, dpv, money, hgd, hw, hm, hf⟩ :=
    buildFarmer_inv fp goods pr fuel r0 f0 r1 hb
  have hzg : gd g = 0 := by rw [hf] at hz; exact hz
  have h0 : f0.inventory g = 0 := by
    rw [hf]
    exact warmupAux_zero goods gd pr g hg hzg 10 0 (fun _ => 0) rA inv rB hw rfl
  exact ⟨h0, (updateSeq_zero fp goods g hg ctx f0 r1 f r2 hs hz h0).2⟩

theorem C7_witness : fC7.1.inventory gCorn = 0 ∧ fC7.1.inventory gCorn = 0 :=
  C7_zero_propensity_zero_inventory fpW [gWheat, gCorn] prTwo 1 rC7 fC7.1
    fC7.2 [] fC7.1 fC7.2 gCorn (by norm_num [gCorn]) buildFarmer_rC7
    fC7_good_dist rfl

theorem floorq (q : ℚ) (z : ℤ) (h1 : (z : ℚ) ≤ q) (h2 : q < z + 1) :
    ⌊q⌋ = z := Int.floor_eq_iff.mpr ⟨h1, h2⟩

theorem pyRound_5_2 : pyRound (5/2) = 2 := by
  unfold pyRound
  rw [floorq (5/2) 2 (by norm_num) (by norm_num)]
  norm_num

theorem pyRound_25_4 : pyRound (25/4) = 6 := by
  unfold pyRound
  rw [floorq (25/4) 6 (by norm_num) (by norm_num)]
  norm_num

theorem pyRound_11_10 : pyRound (11/10) = 1 := by
  unfold pyRound
  rw [floorq (11/10) 1 (by norm_num) (by norm_num)]
  norm_num

theorem pyRound_11_5 : pyRound (11/5) = 2 := by
  unfold pyRound
  rw [floorq (11/5) 2 (by norm_num) (by norm_num)]
  norm_num

/-- C5 (amended): after an update the stored price is exactly the
formula `round2(base_price · clip((base_abundance / max(0.1, supply))^sens, 0.25, 4))`,
and — because rounding to cents can move the product up to half a cent
past the clip interval — the price lies in
`[0.25·base_price − 0.005, 4·base_price + 0.005]` (for a nonnegative
base price).  The original interval `[0.25·base_price, 4·base_price]`
fails; see the counterexample. -/
theorem C5_amended_price_formula_and_bounds (sens : ℕ) (abund : Good → ℚ)
    (goods : List Good) (ss : Good → ℚ) (g : Good) (hmem : g ∈ goods)
    (hbp : 0 ≤ g.base_price) :
    Location.compute_prices sens abund goods ss g
      = some (round2 (g.base_price *
          npClip ((abund g / max (1/10) (ss g)) ^ sens) (1/4) 4)) ∧
    g.base_price * (1/4) - 1/200 ≤ locPrice sens (abund g) g (ss g) ∧
    locPrice sens (abund g) g (ss g) ≤ g.base_price * 4 + 1/200 := by
  refine ⟨by simp [Location.compute_prices, hmem, locPrice], ?_, ?_⟩
  · have h1 : g.base_price * (1/4) ≤
        g.base_price * npClip ((abund g / max (1/10) (ss g)) ^ sens)
          (1/4) 4 :=
      mul_le_mul_of_nonneg_left (lo_le_npClip _ _ _ (by norm_num)) hbp
    have h2 := le_round2 (g.base_price *
      npClip ((abund g / max (1/10) (ss g)) ^ sens) (1/4) 4)
    unfold locPrice
    linarith
  · have h1 : g.base_price * npClip
        ((abund g / max (1/10) (ss g)) ^ sens) (1/4) 4
        ≤ g.base_price * 4 :=
      mul_le_mul_of_nonneg_left (npClip_le_hi _ _ _) hbp
    have h2 := round2_le (g.base_price *
      npClip ((abund g / max (1/10) (ss g)) ^ sens) (1/4) 4)
    unfold locPrice
    linarith

/-- C5 (counterexample): corn (`base_price = 0.25`) with
`base_abundance = 0.1` and supply score `1` prices at
`round(0.25 · 0.25, 2) = round(0.0625, 2) = 0.06`, which is strictly
below the claimed lower bound `0.25 · base_price = 0.0625`. -/
theorem C5_counterexample :
    Location.compute_prices 1 (fun _ => 1/10) [gCorn] (fun _ => 1) gCorn
      = some (3/50) ∧
    (3/50 : ℚ) < gCorn.base_price * (1/4) := by
  constructor
  · norm_num [Location.compute_prices, locPrice, npClip, round2, gCorn,
      min_def, max_def, pyRound_25_4]
  · norm_num [gCorn]

theorem C5_witness :
    Location.compute_prices 1 (fun _ => 1/10) [gCorn] (fun _ => 1) gCorn
      = some (round2 (gCorn.base_price *
          npClip (((fun _ => (1:ℚ)/10) gCorn / max (1/10) ((fun _ => (1:ℚ)) gCorn)) ^ 1)
            (1/4) 4)) ∧
    gCorn.base_price * (1/4) - 1/200
      ≤ locPrice 1 ((fun _ => (1:ℚ)/10) gCorn) gCorn ((fun _ => (1:ℚ)) gCorn) ∧
    locPrice 1 ((fun _ => (1:ℚ)/10) gCorn) gCorn ((fun _ => (1:ℚ)) gCorn)
      ≤ gCorn.base_price * 4 + 1/200 :=
  C5_amended_price_formula_and_bounds 1 (fun _ => 1/10) [gCorn] (fun _ => 1)
    gCorn (by simp) (by norm_num [gCorn])

/-- Evaluation of the C4 run: one daily update leaves the farmer's
inventory at `15` and sets its own price for wheat to
`location_price · clip(supply/inventory, 0.5, 2) = (1/50) · (1/2) = 1/100`. -/
theorem updC4_eq :
    Farmer.update fpW [gWheat] prC4 (fun _ => 1/50) (fun _ => 5) fmC4 rC4
      = some fUpdC4 := by
  norm_num [fUpdC4, Farmer.update, update_inventory, sample_good_delta,
    Farmer.compute_prices, Farmer.update_money, RNG.drawPy, RNG.drawRng,
    RNG.expoRng, expStd, rC4, pyC7, fmC4, prC4, fpW, gWheat, min_def,
    max_def, abs_of_nonneg, pyRound_zero, npClip]

/-- Evaluation of the C4 run: the quoted buy price is
`round(1/100 · 1.1, 2) = 0.01`. -/
theorem fUpdC4_buy :
    Farmer.buy_price fpW fUpdC4.1 gWheat = some (1/100) := by
  norm_num [fUpdC4, Farmer.update, update_inventory, sample_good_delta,
    Farmer.compute_prices, Farmer.update_money, Farmer.buy_price, round2,
    RNG.drawPy, RNG.drawRng, RNG.expoRng, expStd, rC4, pyC7, fmC4, prC4,
    fpW, gWheat, min_def, max_def, abs_of_nonneg, pyRound_zero, npClip,
    pyRound_11_10]

/-- C4 (amended): the quoted buy/sell prices are spreads on the
*farmer's own* computed price, which is the location price only when
the farmer's propensity for the good is `0`; otherwise it is the
location price times `clip((supply_score / max(0.1, inventory))^sens, 0.5, 2)`. -/
theorem C4_amended_quotes_from_farmer_price (fp : FarmerParams)
    (goods : List Good) (pr : Good → Option ℚ) (lp ls : Good → ℚ)
    (f : Farmer) (r : RNG) (f2 : Farmer) (r2 : RNG) (g : Good)
    (h : Farmer.update fp goods pr lp ls f r = some (f2, r2))
    (hmem : g ∈ goods) :
    Farmer.buy_price fp f2 g = some (round2 ((if f2.good_dist g = 0 then lp g
        else lp g * npClip ((ls g / max (1/10) (f2.inventory g))
          ^ fp.supply_sensitivity) (1/2) 2) * (1 + fp.spread))) ∧
    Farmer.sell_price fp f2 g = some (round2 ((if f2.good_dist g = 0 then lp g
        else lp g * npClip ((ls g / max (1/10) (f2.inventory g))
          ^ fp.supply_sensitivity) (1/2) 2) * (1 - fp.spread))) := by
  obtain ⟨inv, rr, hui, hinv, hgd, -, hpr, -⟩ :=
    farmer_update_inv fp goods pr lp ls f r f2 r2 h
  constructor <;>
    simp [Farmer.buy_price, Farmer.sell_price, hpr, Farmer.compute_prices,
      hmem, hinv, hgd]

/-- C4 (counterexample): in the C4 run the farmer quotes
`buy = 0.01`, while `round(location_price · (1 + spread), 2)
= round(0.02 · 1.1, 2) = 0.02`: the quote is not derived from the
location price. -/
theorem C4_counterexample :
    Farmer.buy_price fpW fUpdC4.1 gWheat = some (1/100) ∧
    round2 ((1/50 : ℚ) * (1 + fpW.spread)) = 1/50 ∧
    ¬ ((1/100 : ℚ) = 1/50) :=
  ⟨fUpdC4_buy, by norm_num [round2, fpW, pyRound_11_5], by norm_num⟩

theorem C4_witness :
    (Farmer.buy_price fpW fUpdC4.1 gWheat
      = some (round2 ((if fUpdC4.1.good_dist gWheat = 0 then (1:ℚ)/50
        else (1:ℚ)/50 * npClip (((5:ℚ) / max (1/10) (fUpdC4.1.inventory gWheat))
          ^ fpW.supply_sensitivity) (1/2) 2) * (1 + fpW.spread)))) ∧
    (Farmer.sell_price fpW fUpdC4.1 gWheat
      = some (round2 ((if fUpdC4.1.good_dist gWheat = 0 then (1:ℚ)/50
        else (1:ℚ)/50 * npClip (((5:ℚ) / max (1/10) (fUpdC4.1.inventory gWheat))
          ^ fpW.supply_sensitivity) (1/2) 2) * (1 - fpW.spread)))) :=
  C4_amended_quotes_from_farmer_price fpW [gWheat] prC4 (fun _ => 1/50)
    (fun _ => 5) fmC4 rC4 fUpdC4.1 fUpdC4.2 gWheat updC4_eq (by simp)

/-- Inversion of `Location.update`: the stored supply scores and prices
are computed from the state of `all` as it was *before* this location's
farmers were updated. -/
theorem location_update_inv (fp : FarmerParams) (sens : ℕ)
    (abund : Good → ℚ) (goods : List Good) (maps : Good → Arr3) (Y : ℕ)
    (day : ℤ) (all : List Loc) (l : Loc) (r : RNG) (l2 : Loc) (r2 : RNG)
    (h : Location.update fp sens abund goods maps Y day all l r
      = some (l2, r2)) :
    ∃ fs2,
      l2 = { l with
        supply_scores := fun g =>
          if g ∈ goods then some (computeSupplyScore l all g) else none,
        prices := Location.compute_prices sens abund goods
          (fun g => computeSupplyScore l all g),
        farmers := fs2 } := by
  simp only [Location.update] at h
  split at h
  · exact absurd h (by simp)
  · rw [Option.some.injEq, Prod.mk.injEq] at h
    obtain ⟨hl, -⟩ := h
    rename_i fs2 r3 hf
    exact ⟨fs2, hl.symm⟩

/-- C3 (amended): the source order is the reverse of the claimed one.
Locations are processed in world order; each location first recomputes
its supply scores and prices — from inventories where its own and later
locations' farmers still hold the previous day's values — and only then
updates its own farmers.  In particular the first location's stored
supply scores for the day are computed entirely from the previous day's
(pre-update) farmer inventories. -/
theorem C3_amended_supply_before_farmers (fp : FarmerParams) (sens : ℕ)
    (abund : Good → ℚ) (goods : List Good) (maps : Good → Arr3) (Y : ℕ)
    (day : ℤ) (l : Loc) (rest : List Loc) (r : RNG) (out : List Loc)
    (r2 : RNG)
    (h : World.update fp sens abund goods maps Y day (l :: rest) r
      = some (out, r2)) :
    ∃ l2 rest2, out = l2 :: rest2 ∧
      l2.supply_scores = (fun g =>
        if g ∈ goods then some (computeSupplyScore l (l :: rest) g)
        else none) ∧
      l2.prices = Location.compute_prices sens abund goods
        (fun g => computeSupplyScore l (l :: rest) g) := by
  simp only [World.update, worldLocsUpdate, List.nil_append] at h
  split at h
  · exact absurd h (by simp)
  · rename_i l2 rB hl
    split at h
    · exact absurd h (by simp)
    · rename_i ls2 r3 hw
      rw [Option.some.injEq, Prod.mk.injEq] at h
      obtain ⟨ho, -⟩ := h
      obtain ⟨fs2, hl2⟩ := location_update_inv fp sens abund goods maps Y
        day (l :: rest) l r l2 rB hl
      exact ⟨l2, ls2, ho.symm, by rw [hl2], by rw [hl2]⟩

/-- Evaluation of the C3 run: one world tick over one location with one
farmer (inventory `5`, increment draw `+10`). -/
theorem wC3_eval :
    World.update fpW 1 (fun _ => 0) [gWheat] mapsC3 100 0 [locC3] rC3
      = some wC3 := by
  norm_num [wC3, World.update, worldLocsUpdate, Location.update,
    farmersUpdate, Farmer.update, update_inventory, sample_good_delta,
    Farmer.compute_prices, Farmer.update_money, Location.compute_prices,
    computeSupplyScore, locPrice, supplyWeight, distance_to, sqrtQ, expQ,
    Location.prod_rate, sample_good_prod, sample_3d, Arr3.get, pyIdx,
    round2, npClip, RNG.drawPy, RNG.drawRng, RNG.expoRng, expStd, rC3,
    pyC7, locC3, mapsC3, fpW, gWheat, min_def, max_def, abs_of_nonneg,
    pyRound_zero, pyRound_ten, pyRound_5_2, Int.floor_zero]

/-- C3 (counterexample): after the C3 world tick, the first location's
*stored* supply score for wheat is `5` (the pre-update inventory), while
the supply score recomputed from the same day's post-update inventories
would be `15`: supply is not computed from post-update inventories. -/
theorem C3_counterexample :
    ((wC3.1.head?.bind fun l2 => l2.supply_scores gWheat) = some 5) ∧
    ((wC3.1.head?.map fun l2 => computeSupplyScore l2 wC3.1 gWheat)
      = some 15) ∧
    ¬ ((5 : ℚ) = 15) := by
  refine ⟨?_, ?_, by norm_num⟩ <;>
    norm_num [wC3, World.update, worldLocsUpdate, Location.update,
      farmersUpdate, Farmer.update, update_inventory, sample_good_delta,
      Farmer.compute_prices, Farmer.update_money, Location.compute_prices,
      computeSupplyScore, locPrice, supplyWeight, distance_to, sqrtQ, expQ,
      Location.prod_rate, sample_good_prod, sample_3d, Arr3.get, pyIdx,
      round2, npClip, RNG.drawPy, RNG.drawRng, RNG.expoRng, expStd, rC3,
      pyC7, locC3, mapsC3, fpW, gWheat, min_def, max_def, abs_of_nonneg,
      pyRound_zero, pyRound_ten, pyRound_5_2, Int.floor_zero]

theorem C3_witness :
    ∃ l2 rest2, wC3.1 = l2 :: rest2 ∧
      l2.supply_scores = (fun g =>
        if g ∈ [gWheat] then some (computeSupplyScore locC3 [locC3] g)
        else none) ∧
      l2.prices = Location.compute_prices 1 (fun _ => 0) [gWheat]
        (fun g => computeSupplyScore locC3 [locC3] g) :=
  C3_amended_supply_before_farmers fpW 1 (fun _ => 0) [gWheat] mapsC3 100 0
    locC3 [] rC3 wC3.1 wC3.2 wC3_eval

/-- C10: whenever `Player.buy` or `Player.sell` returns
`success = False`, the player's and the farmer's inventory and money are
left exactly unchanged — every failing guard returns before any
mutation. -/
theorem C10_failed_trade_no_side_effects (fp : FarmerParams) (pl : Player)
    (f : Farmer) (g : Good) (q : ℤ) (price : Option ℚ) (pl2 : Player)
    (f2 : Farmer) :
    (Player.buy fp pl g q f price = some (false, pl2, f2) →
      pl2 = pl ∧ f2 = f) ∧
    (Player.sell fp pl g q f = some (false, pl2, f2) →
      pl2 = pl ∧ f2 = f) := by
  constructor
  · intro h
    simp only [Player.buy] at h
    split at h
    · rw [Option.some.injEq, Prod.mk.injEq, Prod.mk.injEq] at h
      exact ⟨h.2.1.symm, h.2.2.symm⟩
    · split at h
      · rw [Option.some.injEq, Prod.mk.injEq, Prod.mk.injEq] at h
        exact ⟨h.2.1.symm, h.2.2.symm⟩
      · split at h
        · split at h
          · rw [Option.some.injEq, Prod.mk.injEq, Prod.mk.injEq] at h
            exact ⟨h.2.1.symm, h.2.2.symm⟩
          · split at h
            · rw [Option.some.injEq, Prod.mk.injEq, Prod.mk.injEq] at h
              exact ⟨h.2.1.symm, h.2.2.symm⟩
            · simp [buyExec] at h
        · split at h
          · exact absurd h (by simp)
          · split at h
            · rw [Option.some.injEq, Prod.mk.injEq, Prod.mk.injEq] at h
              exact ⟨h.2.1.symm, h.2.2.symm⟩
            · simp [buyExec] at h
  · intro h
    simp only [Player.sell] at h
    split at h
    · rw [Option.some.injEq, Prod.mk.injEq, Prod.mk.injEq] at h
      exact ⟨h.2.1.symm, h.2.2.symm⟩
    · split at h
      · rw [Option.some.injEq, Prod.mk.injEq, Prod.mk.injEq] at h
        exact ⟨h.2.1.symm, h.2.2.symm⟩
      · split at h
        · exact absurd h (by simp)
        · split at h
          · rw [Option.some.injEq, Prod.mk.injEq, Prod.mk.injEq] at h
            exact ⟨h.2.1.symm, h.2.2.symm⟩
          · simp [sellExec] at h

theorem C10_witness :
    (plW = plW ∧ fmC4 = fmC4) ∧ (plW = plW ∧ fmC4 = fmC4) :=
  ⟨(C10_failed_trade_no_side_effects fpW plW fmC4 gWheat 0 none plW fmC4).1
    rfl,
   (C10_failed_trade_no_side_effects fpW plW fmC4 gWheat 0 none plW fmC4).2
    rfl⟩

/- The controller stream function is never replaced, only its cursor
advances; these equations transport stream nonnegativity to the
position of the `init_money` draw. -/

theorem sample_good_delta_rngS (a b c : ℚ) (r : RNG) :
    (sample_good_delta a b c r).2.rngS = r.rngS := by
  simp only [sample_good_delta, RNG.drawPy, RNG.drawRng, RNG.expoRng]
  repeat' split
  all_goals rfl

theorem update_inventory_rngS (gd : Good → ℚ) (pr : Good → Option ℚ) :
    ∀ (goods : List Good) (inv : Good → ℚ) (r : RNG) (inv2 : Good → ℚ)
      (r2 : RNG), update_inventory goods gd pr inv r = some (inv2, r2) →
      r2.rngS = r.rngS := by
  intro goods
  induction goods with
  | nil =>
    intro inv r inv2 r2 h
    simp only [update_inventory, Option.some.injEq, Prod.mk.injEq] at h
    rw [← h.2]
  | cons g0 rest ih =>
    intro inv r inv2 r2 h
    simp only [update_inventory] at h
    cases hpr : pr g0 with
    | none => simp [hpr] at h
    | some lr =>
      simp only [hpr] at h
      rw [ih _ _ inv2 r2 h, sample_good_delta_rngS]

theorem warmupAux_rngS (goods : List Good) (gd : Good → ℚ)
    (pr : ℤ → Good → Option ℚ) :
    ∀ (n day : ℕ) (inv : Good → ℚ) (r : RNG) (inv2 : Good → ℚ) (r2 : RNG),
      warmupAux goods gd pr day n inv r = some (inv2, r2) →
      r2.rngS = r.rngS := by
  intro n
  induction n with
  | zero =>
    intro day inv r inv2 r2 h
    simp only [warmupAux, Option.some.injEq, Prod.mk.injEq] at h
    rw [← h.2]
  | succ n ih =>
    intro day inv r inv2 r2 h
    simp only [warmupAux] at h
    cases hu : update_inventory goods gd (pr (day : ℤ)) inv r with
    | none => simp [hu] at h
    | some p =>
      simp only [hu] at h
      rw [ih (day + 1) p.1 p.2 inv2 r2 h,
        update_inventory_rngS gd (pr (day : ℤ)) goods inv r p.1 p.2
          (by rw [hu])]

theorem drawRngList_rngS (k : ℕ) :
    ∀ r : RNG, (drawRngList k r).2.rngS = r.rngS := by
  induction k with
  | zero => intro r; rfl
  | succ k ih =>
    intro r
    simp only [drawRngList, RNG.drawRng]
    rw [ih]

theorem generate_farmer_good_dist_rngS (fp : FarmerParams)
    (goods : List Good) :
    ∀ (fuel : ℕ) (r : RNG) (gd : Good → ℚ) (rA : RNG),
      generate_farmer_good_dist fp goods fuel r = some (gd, rA) →
      rA.rngS = r.rngS := by
  intro fuel
  induction fuel with
  | zero => intro r gd rA h; simp [generate_farmer_good_dist] at h
  | succ fuel ih =>
    intro r gd rA h
    simp only [generate_farmer_good_dist] at h
    split at h
    · rw [Option.some.injEq, Prod.mk.injEq] at h
      rw [← h.2, drawRngList_rngS, drawRngList_rngS]
    · rw [ih _ gd rA h, drawRngList_rngS]

/-- Every branch of `update_money` yields a nonnegative amount from a
nonnegative one: unchanged, reset to `0.25·dpv > 0`, or multiplied by a
nonnegative factor. -/
theorem update_money_nonneg (fp : FarmerParams) (f : Farmer) (r : RNG)
    (h0 : 0 ≤ f.money) (hd : 0 < f.dpv)
    (hg : 0 ≤ fp.money_growth_factor) (hdec : 0 ≤ fp.money_decay_factor) :
    0 ≤ (Farmer.update_money fp f r).1 := by
  simp only [Farmer.update_money]
  repeat' split
  all_goals
    first
      | exact h0
      | linarith
      | exact mul_nonneg h0 hg
      | exact mul_nonneg h0 hdec

/-- The invariant holds right after construction: the `assert dpv > 0`
guard establishes positivity, the initial money is
`(lower + (upper − lower)·u)·dpv` with a nonnegative draw `u`, and the
price dict is empty. -/
theorem buildFarmer_money_inv (fp : FarmerParams) (goods : List Good)
    (pr : ℤ → Good → Option ℚ) (fuel : ℕ) (r0 : RNG) (f0 : Farmer)
    (r1 : RNG) (h : buildFarmer fp goods pr fuel r0 = some (f0, r1))
    (hs : ∀ n, 0 ≤ r0.rngS n) (hlo : 0 ≤ fp.lower_money_multiplier)
    (hlu : fp.lower_money_multiplier ≤ fp.upper_money_multiplier) :
    MoneyInv f0 := by
  obtain ⟨gd, rA, inv, rB, dpv, money, hgd, hw, hm, hf⟩ :=
    buildFarmer_inv fp goods pr fuel r0 f0 r1 h
  have hBA : rB.rngS = rA.rngS := warmupAux_rngS goods gd pr 10 0 _ rA inv rB hw
  have hA0 : rA.rngS = r0.rngS :=
    generate_farmer_good_dist_rngS fp goods fuel r0 gd rA hgd
  simp only [Farmer.init_money, RNG.drawRng] at hm
  split at hm
  · rename_i hpos
    rw [Option.some.injEq, Prod.mk.injEq, Prod.mk.injEq] at hm
    obtain ⟨hdpv, hmoney, -⟩ := hm
    have hdpv0 : 0 < dpv := hdpv ▸ hpos
    have hu : 0 ≤ rB.rngS rB.rngPos := by rw [hBA, hA0]; exact hs _
    refine ⟨by rw [hf]; exact hdpv0, ?_, by rw [hf]; intro g p hp; simp at hp⟩
    rw [hf]
    show 0 ≤ money
    rw [← hmoney]
    have hmult : 0 ≤ fp.lower_money_multiplier +
        (fp.upper_money_multiplier - fp.lower_money_multiplier) *
          rB.rngS rB.rngPos := by
      have : 0 ≤ (fp.upper_money_multiplier - fp.lower_money_multiplier) *
          rB.rngS rB.rngPos := mul_nonneg (by linarith) hu
      linarith
    exact mul_nonneg hmult (le_of_lt hpos)
  · exact absurd hm (by simp)

/-- A successful or failed `Player.buy` leaves the farmer's money
invariant intact: a failure changes nothing, and a success adds a
nonnegative amount (explicit prices are guarded against negatives;
default prices are spreads on the farmer's own nonnegative prices). -/
theorem Player.buy_money_inv (fp : FarmerParams) (pl : Player) (g : Good)
    (q : ℤ) (f : Farmer) (price : Option ℚ) (res : Bool × Player × Farmer)
    (h : Player.buy fp pl g q f price = some res) (hi : MoneyInv f)
    (hspread : 0 ≤ fp.spread) : MoneyInv res.2.2 := by
  obtain ⟨hdpv, hmoney, hprices⟩ := hi
  have hexec : ∀ pr : ℚ, 0 ≤ pr → ¬ q < 1 →
      MoneyInv (buyExec pl f g q pr).2.2 := by
    intro pr hpr hq
    have hq0 : (0 : ℚ) ≤ (q : ℚ) := by
      have : (1 : ℤ) ≤ q := by omega
      exact_mod_cast le_trans (by norm_num) this
    refine ⟨hdpv, ?_, hprices⟩
    have : 0 ≤ round2 (pr * (q : ℚ)) := round2_nonneg (mul_nonneg hpr hq0)
    show 0 ≤ f.money + round2 (pr * (q : ℚ))
    linarith
  simp only [Player.buy] at h
  split at h
  · rw [← Option.some.inj h]; exact ⟨hdpv, hmoney, hprices⟩
  · split at h
    · rw [← Option.some.inj h]; exact ⟨hdpv, hmoney, hprices⟩
    · rename_i hq hstock
      split at h
      · rename_i pr
        split at h
        · rw [← Option.some.inj h]; exact ⟨hdpv, hmoney, hprices⟩
        · rename_i hneg
          split at h
          · rw [← Option.some.inj h]; exact ⟨hdpv, hmoney, hprices⟩
          · rw [← Option.some.inj h]
            exact hexec pr (not_lt.mp hneg) hq
      · cases hbp : Farmer.buy_price fp f g with
        | none => simp [hbp] at h
        | some pr =>
          simp only [hbp] at h
          have hpr : 0 ≤ pr := by
            simp only [Farmer.buy_price] at hbp
            cases hp0 : f.prices g with
            | none => rw [hp0] at hbp; simp at hbp
            | some p0 =>
              rw [hp0] at hbp
              have hp0n : 0 ≤ p0 := hprices g p0 hp0
              rw [← Option.some.inj hbp]
              exact round2_nonneg (mul_nonneg hp0n (by linarith))
          split at h
          · rw [← Option.some.inj h]; exact ⟨hdpv, hmoney, hprices⟩
          · rw [← Option.some.inj h]
            exact hexec pr hpr hq

/-- `Player.sell` refuses a sale the farmer cannot pay for, so the
farmer's money stays nonnegative. -/
theorem Player.sell_money_inv (fp : FarmerParams) (pl : Player) (g : Good)
    (q : ℤ) (f : Farmer) (res : Bool × Player × Farmer)
    (h : Player.sell fp pl g q f = some res) (hi : MoneyInv f) :
    MoneyInv res.2.2 := by
  obtain ⟨hdpv, hmoney, hprices⟩ := hi
  simp only [Player.sell] at h
  split at h
  · rw [← Option.some.inj h]; exact ⟨hdpv, hmoney, hprices⟩
  · split at h
    · rw [← Option.some.inj h]; exact ⟨hdpv, hmoney, hprices⟩
    · cases hsp : Farmer.sell_price fp f g with
      | none => simp [hsp] at h
      | some sp0 =>
        simp only [hsp] at h
        split at h
        · rw [← Option.some.inj h]; exact ⟨hdpv, hmoney, hprices⟩
        · rename_i hafford
          rw [← Option.some.inj h]
          refine ⟨hdpv, ?_, hprices⟩
          show 0 ≤ f.money - round2 (sp0 * (q : ℚ))
          linarith [not_lt.mp hafford]

/-- One engine update or one trade preserves the money invariant. -/
theorem applyOp_inv (fp : FarmerParams) (goods : List Good) (op : Op)
    (st st2 : Player × Farmer × RNG) (hv : Op.Valid goods op)
    (hspread : 0 ≤ fp.spread) (hg : 0 ≤ fp.money_growth_factor)
    (hdec : 0 ≤ fp.money_decay_factor)
    (h : applyOp fp goods st op = some st2) (hi : MoneyInv st.2.1) :
    MoneyInv st2.2.1 := by
  obtain ⟨hdpv, hmoney, hprices⟩ := hi
  cases op with
  | dayUpdate pr lp ls =>
    simp only [applyOp] at h
    cases hu : Farmer.update fp goods pr lp ls st.2.1 st.2.2 with
    | none => simp [hu] at h
    | some p =>
      simp only [hu] at h
      rw [← Option.some.inj h]
      obtain ⟨inv, rr, hui, hinv, hgd, hdp, hpr, hmn⟩ :=
        farmer_update_inv fp goods pr lp ls st.2.1 st.2.2 p.1 p.2
          (by rw [hu])
      refine ⟨by rw [hdp]; exact hdpv, ?_, ?_⟩
      · show 0 ≤ p.1.money
        rw [hmn]
        exact update_money_nonneg fp _ rr hmoney hdpv hg hdec
      · intro g2 pv hp
        rw [hpr] at hp
        simp only [Farmer.compute_prices] at hp
        split at hp
        · rename_i hmem
          rw [← Option.some.inj hp]
          split
          · exact hv g2 hmem
          · refine mul_nonneg (hv g2 hmem) ?_
            have := lo_le_npClip
              ((ls g2 / max (1/10) (inv g2)) ^ fp.supply_sensitivity)
              (1/2) 2 (by norm_num)
            linarith
        · exact absurd hp (by simp)
  | buyFrom g q price =>
    simp only [applyOp] at h
    cases hb : Player.buy fp st.1 g q st.2.1 price with
    | none => simp [hb] at h
    | some p =>
      simp only [hb] at h
      rw [← Option.some.inj h]
      exact Player.buy_money_inv fp st.1 g q st.2.1 price p hb
        ⟨hdpv, hmoney, hprices⟩ hspread
  | sellTo g q =>
    simp only [applyOp] at h
    cases hs : Player.sell fp st.1 g q st.2.1 with
    | none => simp [hs] at h
    | some p =>
      simp only [hs] at h
      rw [← Option.some.inj h]
      exact Player.sell_money_inv fp st.1 g q st.2.1 p hs
        ⟨hdpv, hmoney, hprices⟩

/-- The money invariant is preserved along any operation sequence. -/
theorem applyOps_inv (fp : FarmerParams) (goods : List Good)
    (hspread : 0 ≤ fp.spread) (hg : 0 ≤ fp.money_growth_factor)
    (hdec : 0 ≤ fp.money_decay_factor) :
    ∀ (ops : List Op) (st st2 : Player × Farmer × RNG),
      (∀ op ∈ ops, Op.Valid goods op) →
      applyOps fp goods ops st = some st2 → MoneyInv st.2.1 →
      MoneyInv st2.2.1 := by
  intro ops
  induction ops with
  | nil =>
    intro st st2 hv h hi
    simp only [applyOps, Option.some.injEq] at h
    rw [← h]
    exact hi
  | cons op rest ih =>
    intro st st2 hv h hi
    simp only [applyOps] at h
    cases ho : applyOp fp goods st op with
    | none => simp [ho] at h
    | some stm =>
      simp only [ho] at h
      exact ih stm st2 (fun o ho2 => hv o (List.mem_cons_of_mem op ho2)) h
        (applyOp_inv fp goods op st stm (hv op (List.mem_cons_self op rest))
          hspread hg hdec ho hi)

/-- C9: every constructed Farmer has `dpv > 0` (construction fails on
the `assert` otherwise), and its money is never negative — after
construction and after any sequence of daily updates and external
`Player.buy`/`Player.sell` calls (where daily updates supply the
location's nonnegative prices, the growth/decay factors and the
`0.25·dpv` reset are nonnegative, and `Player.sell` refuses a sale the
farmer cannot pay for). -/
theorem C9_dpv_pos_money_nonneg (fp : FarmerParams) (goods : List Good)
    (pr : ℤ → Good → Option ℚ) (fuel : ℕ) (r0 : RNG) (f0 : Farmer)
    (r1 : RNG) (pl0 : Player) (ops : List Op)
    (st2 : Player × Farmer × RNG)
    (hb : buildFarmer fp goods pr fuel r0 = some (f0, r1))
    (hstream : ∀ n, 0 ≤ r0.rngS n)
    (hlo : 0 ≤ fp.lower_money_multiplier)
    (hlu : fp.lower_money_multiplier ≤ fp.upper_money_multiplier)
    (hgrow : 0 ≤ fp.money_growth_factor)
    (hdec : 0 ≤ fp.money_decay_factor)
    (hspread : 0 ≤ fp.spread)
    (hv : ∀ op ∈ ops, Op.Valid goods op)
    (ha : applyOps fp goods ops (pl0, f0, r1) = some st2) :
    (0 < f0.dpv ∧ 0 ≤ f0.money) ∧
    (0 < st2.2.1.dpv ∧ 0 ≤ st2.2.1.money) := by
  have h0 : MoneyInv f0 :=
    buildFarmer_money_inv fp goods pr fuel r0 f0 r1 hb hstream hlo hlu
  have h2 : MoneyInv st2.2.1 :=
    applyOps_inv fp goods hspread hgrow hdec ops (pl0, f0, r1) st2 hv ha h0
  exact ⟨⟨h0.1, h0.2.1⟩, ⟨h2.1, h2.2.1⟩⟩

theorem C9_witness :
    (0 < fC2.1.dpv ∧ 0 ≤ fC2.1.money) ∧
    (0 < fC2.1.dpv ∧ 0 ≤ fC2.1.money) :=
  C9_dpv_pos_money_nonneg fpW [gWheat] prTwo 1 rC2 fC2.1 fC2.2 plW []
    (plW, fC2.1, fC2.2) buildFarmer_rC2
    (by
      intro n
      simp only [rC2, rngC2]
      split
      · norm_num
      · split <;> norm_num)
    (by norm_num [fpW]) (by norm_num [fpW]) (by norm_num [fpW])
    (by norm_num [fpW]) (by norm_num [fpW]) (by intro op hop; simp at hop)
    rfl

/-- C1: two engines constructed with the same seed and parameters, each
given `N` identical update calls, have identical noise fields, location
positions, farmer inventories, and prices (both the locations' stored
prices and the farmers' own price dicts).  In this embedding every
random draw is read off explicit seed-derived streams, so the whole
construction-and-update pipeline is one pure function of
`(seed, parameters, N)`; determinism is exactly the agreement of two
runs of that function. -/
theorem C1_two_run_determinism (seed : ℤ) (goods0 : List Good)
    (year_length : ℕ) (pp : ProdParams) (lp : LocationParams)
    (fps : FarmerParams) (pim : ℚ) (fuel N : ℕ)
    (e1 e2 : Option EngineState)
    (h1 : e1 = buildAndRun seed goods0 year_length pp lp fps pim fuel N)
    (h2 : e2 = buildAndRun seed goods0 year_length pp lp fps pim fuel N) :
    (e1.map fun e => e.maps) = (e2.map fun e => e.maps) ∧
    (e1.map fun e => e.locations.map fun l => l.pos)
      = (e2.map fun e => e.locations.map fun l => l.pos) ∧
    (e1.map fun e => e.locations.map fun l =>
        l.farmers.map fun f => f.inventory)
      = (e2.map fun e => e.locations.map fun l =>
        l.farmers.map fun f => f.inventory) ∧
    (e1.map fun e => (e.locations.map fun l => l.prices,
        e.locations.map fun l => l.farmers.map fun f => f.prices))
      = (e2.map fun e => (e.locations.map fun l => l.prices,
        e.locations.map fun l => l.farmers.map fun f => f.prices)) := by
  subst h1
  subst h2
  exact ⟨rfl, rfl, rfl, rfl⟩

theorem C1_witness :
    ((buildAndRun 134 goodsW 100 prodParamsW locationParamsW fpW 10 100
        3).map fun e => e.maps)
      = ((buildAndRun 134 goodsW 100 prodParamsW locationParamsW fpW 10 100
        3).map fun e => e.maps) ∧
    ((buildAndRun 134 goodsW 100 prodParamsW locationParamsW fpW 10 100
        3).map fun e => e.locations.map fun l => l.pos)
      = ((buildAndRun 134 goodsW 100 prodParamsW locationParamsW fpW 10 100
        3).map fun e => e.locations.map fun l => l.pos) ∧
    ((buildAndRun 134 goodsW 100 prodParamsW locationParamsW fpW 10 100
        3).map fun e => e.locations.map fun l =>
        l.farmers.map fun f => f.inventory)
      = ((buildAndRun 134 goodsW 100 prodParamsW locationParamsW fpW 10 100
        3).map fun e => e.locations.map fun l =>
        l.farmers.map fun f => f.inventory) ∧
    ((buildAndRun 134 goodsW 100 prodParamsW locationParamsW fpW 10 100
        3).map fun e => (e.locations.map fun l => l.prices,
        e.locations.map fun l => l.farmers.map fun f => f.prices))
      = ((buildAndRun 134 goodsW 100 prodParamsW locationParamsW fpW 10 100
        3).map fun e => (e.locations.map fun l => l.prices,
        e.locations.map fun l => l.farmers.map fun f => f.prices)) :=
  C1_two_run_determinism 134 goodsW 100 prodParamsW locationParamsW fpW 10
    100 3 _ _ rfl rfl
